import Mathlib

/-!
Verification of the `pip` module of the `moreati/ansible-uv` collection
(`plugins/modules/pip.py`), a shallow embedding in Lean 4.

Python strings are embedded as `String`, and the handful of Python string
primitives the module uses (`str.split`, `str.join`, `str.lstrip`,
`str.startswith`, the `in` substring test, `os.path.join`, `shlex.split` on
quote-free inputs, `int(_, 8)`) are defined below as structurally recursive
functions on the underlying character lists, so that everything evaluates by
kernel reduction.

The module's effectful `main` is embedded as a pure function over an oracle
(`World`) that supplies the results of every subprocess invocation, the
filesystem-existence and executable-lookup answers, and the initial process
umask.  Each subprocess launch is recorded in a trace, and the outcomes of
`module.exit_json` / `module.fail_json` are reified as a `Term` value.
-/

/-- Whitespace for Python's `str.lstrip()` / `str.split()` / `shlex`
(ASCII whitespace: space, tab, newline, carriage return, vertical tab,
form feed). -/
def pyIsSpace (c : Char) : Bool :=
  c = ' ' || c = '\t' || c = '\n' || c = '\r' || c = '\x0b' || c = '\x0c'

/-- Models `str.lstrip()` on the character list of a string. -/
def pyLstrip (s : List Char) : List Char :=
  s.dropWhile pyIsSpace

/-- Models `a.startswith(b)` for Python strings. -/
def strStartsWith (s pre : String) : Bool :=
  pre.data.isPrefixOf s.data

/-- Models `b in a` (Python substring containment) on character lists. -/
def listContainsSub (needle : List Char) : List Char → Bool
  | [] => needle.isPrefixOf []
  | c :: t => needle.isPrefixOf (c :: t) || listContainsSub needle t

/-- Models `needle in hay` for Python strings. -/
def inStr (needle hay : String) : Bool :=
  listContainsSub needle.data hay.data

/-- Models `s.split(sep)` for a single-character separator, on character lists.
Mirrors Python semantics: the number of output pieces is one more than the
number of separator occurrences, and empty pieces are kept. -/
def splitChAux (sep : Char) : List Char → List Char → List (List Char)
  | [], acc => [acc.reverse]
  | c :: cs, acc =>
    if c = sep then acc.reverse :: splitChAux sep cs []
    else splitChAux sep cs (c :: acc)

/-- Models `s.split(sep)` for a single-character separator (the module only splits
on `","`, `" "` and, for the multiline-regex model, `"\n"`). -/
def pySplitCh (sep : Char) (s : String) : List String :=
  (splitChAux sep s.data []).map String.mk

/-- Models `sep.join(xs)` for Python strings. -/
def pyJoinSep (sep : String) : List String → String
  | [] => ""
  | [x] => x
  | x :: y :: t => x ++ sep ++ pyJoinSep sep (y :: t)

/-- Models `s.split()` (split on runs of whitespace, dropping empty pieces), on
character lists. -/
def splitWsAux : List Char → List Char → List (List Char)
  | [], acc => if acc.isEmpty then [] else [acc.reverse]
  | c :: cs, acc =>
    if pyIsSpace c then
      if acc.isEmpty then splitWsAux cs []
      else acc.reverse :: splitWsAux cs []
    else splitWsAux cs (c :: acc)

/-- Models `s.split()` for Python strings. -/
def pySplitWs (s : String) : List String :=
  (splitWsAux s.data []).map String.mk

/-- Models `shlex.split(s)`, modelled for command strings free of quoting and
escape characters (every command string the module builds is of this
shape): it coincides with whitespace splitting. -/
def pyShlexSplit (s : String) : List String :=
  pySplitWs s

/-- Models `os.path.join(a, b)` for POSIX paths. -/
def pyJoin (a b : String) : String :=
  if strStartsWith b "/" then b
  else if a = "" || a.data.getLast? = some '/' then a ++ b
  else a ++ "/" ++ b

/-- Models `os.path.basename(s)` for POSIX paths. -/
def pyBasename (s : String) : String :=
  String.mk (s.data.reverse.takeWhile (fun c => c ≠ '/')).reverse

/-- Models `s[n:]` for Python strings. -/
def strDrop (s : String) (n : Nat) : String :=
  String.mk (s.data.drop n)

/-- Models `int(s, 8)`: parse an octal integer literal with optional surrounding
whitespace, an optional sign, and an optional `0o`/`0O` prefix (digit-group
underscores are not modelled; the module passes plain octal strings such as
`"0022"`). `none` models the `ValueError` branch. -/
def pyIntOctal (s : String) : Option Int :=
  let t := (pyLstrip s.data).reverse.dropWhile pyIsSpace |>.reverse
  let (sign, t1) : Int × List Char :=
    match t with
    | '+' :: r => (1, r)
    | '-' :: r => (-1, r)
    | r => (1, r)
  let t2 :=
    match t1 with
    | '0' :: 'o' :: r => r
    | '0' :: 'O' :: r => r
    | r => r
  if t2 ≠ [] && t2.all (fun c => '0' ≤ c && c ≤ '7') then
    some (sign * (t2.foldl (fun a c => a * 8 + (c.toNat - '0'.toNat)) (0 : Nat) : Nat))
  else none

/-! ## The pure helpers of `pip.py` -/

/-- The keys of `op_dict` (`pip.py` line 277), in insertion order; used both
by `_is_package_name` (`startswith` against this tuple) and by
`Package._VERSION_OPS_RE` (alternation of these, searched anywhere). -/
def op_keys : List String := [">=", "<=", ">", "<", "==", "!=", "~="]

/-- Models `_is_package_name` (`pip.py` line 298): a token is a package name unless,
after stripping leading whitespace, it starts with one of the comparison
operators. -/
def _is_package_name (name : String) : Bool :=
  !(op_keys.any fun op => op.data.isPrefixOf (pyLstrip name.data))

/-- Models `_is_vcs_url` (`pip.py` line 281): `re.match(r'(svn|git|hg|bzr)\+', name)`,
anchored at the start of the string. -/
def _is_vcs_url (name : String) : Bool :=
  ["svn+", "git+", "hg+", "bzr+"].any fun pre => strStartsWith name pre

/-- The `-m` option value recovered by `argparse.parse_known_args` inside
`_is_venv_command` (`pip.py` lines 287-292): the last `-m <value>` or
`-m<value>` occurrence wins; a trailing lone `-m` contributes nothing
(argparse would abort there; no caller passes that shape). -/
def parse_m : Option String → List String → Option String
  | acc, [] => acc
  | acc, [a] =>
    if a = "-m" then acc
    else if strStartsWith a "-m" then some (strDrop a 2)
    else acc
  | acc, a :: v :: rest =>
    if a = "-m" then parse_m (some v) rest
    else if strStartsWith a "-m" then parse_m (some (strDrop a 2)) (v :: rest)
    else parse_m acc (v :: rest)

/-- Models `_is_venv_command` (`pip.py` line 286): the command is venv-style when
its first token is the bare `pyvenv` marker, or when `-m venv` is recovered
from the remaining tokens.  (On an empty command the source raises
`IndexError` before this test can matter; callers in `main` have already
crashed on `cmd[0]` by then, see `setup_virtualenv_m`.) -/
def _is_venv_command (command : String) : Bool :=
  match pyShlexSplit command with
  | [] => false
  | a :: args => a = "pyvenv" || parse_m none args == some "venv"

/-- The state of the token-regrouping loop of `_recover_package_name`
(`pip.py` lines 322-335): the buffer of tokens of the requirement being
assembled, the requirements already emitted, and the extras-bracket flag. -/
structure RecoverState where
  name_parts : List String
  package_names : List String
  in_brackets : Bool
deriving Repr, DecidableEq

/-- One iteration of the `for name in names` loop of `_recover_package_name`
(`pip.py` lines 326-335). -/
def recoverStep (s : RecoverState) (name : String) : RecoverState :=
  let s :=
    if _is_package_name name && !s.in_brackets then
      { s with
        package_names :=
          if s.name_parts ≠ [] then s.package_names ++ [pyJoinSep "," s.name_parts]
          else s.package_names,
        name_parts := [] }
    else s
  let s := if name.data.contains '[' then { s with in_brackets := true } else s
  let s := if s.in_brackets && name.data.contains ']' then { s with in_brackets := false } else s
  { s with name_parts := s.name_parts ++ [name] }

/-- The loop of `_recover_package_name` run over a flattened token stream. -/
def recoverScan (tokens : List String) : RecoverState :=
  tokens.foldl recoverStep ⟨[], [], false⟩

/-- Models `_recover_package_name` (`pip.py` line 303): flatten the raw input by
splitting every element on `","`, then regroup the token stream into
requirement strings. -/
def _recover_package_name (names : List String) : List String :=
  let tmp := names.flatMap fun one_line => pySplitCh ',' one_line
  let s := recoverScan tmp
  s.package_names ++ [pyJoinSep "," s.name_parts]

/-- Models `Package.has_version_specifier` (`pip.py` lines 479-483):
`_VERSION_OPS_RE.search` succeeds iff one of the operators of `op_dict`
occurs somewhere in the requirement text. -/
def has_version_specifier (s : String) : Bool :=
  op_keys.any fun op => inStr op s

/-! ## The execution model of `main`

`main` (`pip.py` line 497) performs filesystem tests, executable lookups and
subprocess invocations.  These effects are supplied by a `World` oracle:
`runs n` is the result of the `n`-th subprocess launched by the run (the
position in the recorded trace), `path_exists` answers `os.path.exists`,
`bin_path` answers `module.get_bin_path`, and `sys_executable`, `tempdir`
and `initial_umask` mirror `sys.executable`, `tempfile.gettempdir()` and the
process umask at entry.  `module.exit_json` and `module.fail_json` terminate
the run and are reified as `Term`; an unhandled Python exception (only
reachable on degenerate inputs such as an empty command string) is
`Term.crashed`. -/

/-- The result of one `module.run_command` call. -/
structure RunResult where
  rc : Int
  out : String
  err : String
deriving Repr, DecidableEq

/-- The effect oracle for one run of the module. -/
structure World where
  path_exists : String → Bool
  bin_path : String → Option String
  runs : Nat → RunResult
  sys_executable : String
  tempdir : String
  initial_umask : Int

/-- How the run terminated: `exited changed cmd` models `module.exit_json`
(with the `cmd` payload when the exit carried one), `failed msg` models
`module.fail_json`, and `crashed` models an unhandled Python exception. -/
inductive Term where
  | exited (changed : Bool) (cmd : Option (List String))
  | failed (msg : String)
  | crashed
deriving Repr, DecidableEq

/-- The mutable context threaded through the run: the trace of subprocess
argument vectors (in launch order), the process umask, the
`PIP_BREAK_SYSTEM_PACKAGES` environment flag, and the source locals
`venv_created` and `out_freeze_before`, plus the fully built main command
(`cmd` as of `pip.py` lines 627-630) once it exists. -/
structure Ctx where
  trace : List (List String) := []
  umask : Int
  pip_break_env : Bool := false
  venv_created : Bool := false
  cmd_built : Option (List String) := none
  out_freeze_before : Option String := none
deriving Repr, DecidableEq

/-- Models `module.run_command(cmd)`: record the launch and consult the oracle. -/
def runCmd (w : World) (c : Ctx) (cmd : List String) : RunResult × Ctx :=
  (w.runs c.trace.length, { c with trace := c.trace ++ [cmd] })

/-- Intermediate result of a stage of `main`: either the run already
terminated (`done`), or it continues with a value. -/
inductive Step (α : Type) where
  | done (t : Term) (c : Ctx)
  | next (a : α) (c : Ctx)

/-- The observable outcome of a run: the terminal event, the subprocess
trace, and the final values of the process umask, the environment flag and
the instrumented locals. -/
structure MainResult where
  outcome : Term
  trace : List (List String)
  umask : Int
  pip_break_env : Bool
  venv_created : Bool
  cmd_built : Option (List String)
  out_freeze_before : Option String
deriving Repr, DecidableEq

/-- Package a terminal event and the final context into a `MainResult`. -/
def finish (t : Term) (c : Ctx) : MainResult :=
  ⟨t, c.trace, c.umask, c.pip_break_env, c.venv_created, c.cmd_built, c.out_freeze_before⟩

/-- The message body built by `_fail` (`pip.py` line 395). -/
def _fail_msg (out err : String) : String :=
  (if out ≠ "" then "stdout: " ++ out else "")
    ++ (if err ≠ "" then "\n:stderr: " ++ err else "")

/-- Models `_get_cmd_options` (`pip.py` line 340): run `cmd --help` and keep the
whitespace-separated words starting with `--`. -/
def _get_cmd_options_m (w : World) (cmd : String) (c : Ctx) : Step (List String) :=
  let thiscmd := cmd ++ " --help"
  let (r, c) := runCmd w c (pyShlexSplit thiscmd)
  if r.rc ≠ 0 then
    .done (.failed ("Could not get output from " ++ thiscmd ++ ": " ++ (r.out ++ r.err))) c
  else
    .next ((pySplitWs r.out).filter fun x => strStartsWith x "--") c

/-- Models `_get_packages` (`pip.py` line 351): run `pip list --format=freeze` and
return the joined command with its stdout/stderr; a non-zero exit is fatal. -/
def _get_packages_m (w : World) (pip : List String) (c : Ctx) :
    Step (String × String × String) :=
  let command := pip ++ ["list", "--format=freeze"]
  let (r, c) := runCmd w c command
  if r.rc ≠ 0 then .done (.failed (_fail_msg r.out r.err)) c
  else .next (pyJoinSep " " command, r.out, r.err) c

/-- Models `_get_pip` (`pip.py` line 365).  The `executable` argument is
`module.params['executable']`, whose `argument_spec` default is `"uv pip"`;
an explicit absolute first token is used verbatim, otherwise the (single)
candidate base name is resolved on the search path. -/
def _get_pip_m (w : World) (executable : Option String) (c : Ctx) :
    Step (List String) :=
  match executable with
  | some e =>
    match pyShlexSplit e with
    | [] => .done .crashed c
    | a :: rest =>
      if strStartsWith a "/" then .next (a :: rest) c
      else
        match w.bin_path a with
        | some pth => .next (pth :: rest) c
        | none =>
          .done (.failed ("Unable to find any of " ++ a ++ " to use. uv needs to be installed.")) c
  | none =>
    match w.bin_path "uv" with
    | some pth => .next [pth, "pip"] c
    | none =>
      .done (.failed "Unable to find any of uv to use. uv needs to be installed.") c

/-- Models `state_map` (`pip.py` line 498). -/
inductive PipState where
  | present
  | absent
  | latest
  | forcereinstall
deriving Repr, DecidableEq

/-- The base sub-command tokens per state (`pip.py` lines 498-503). -/
def state_map : PipState → List String
  | .present => ["install"]
  | .absent => ["uninstall"]
  | .latest => ["install", "-U"]
  | .forcereinstall => ["install", "-U", "--force-reinstall"]

/-- The caller-supplied module parameters.  An `Option` field is `none` when
the caller did not supply the option; the `argument_spec` defaults of
`executable` (`"uv pip"`) and `virtualenv_command` (`"uv venv"`) are applied
at the points of use, matching how `AnsibleModule` injects them into
`module.params`. -/
structure Params where
  state : PipState := .present
  name : Option (List String) := none
  version : Option String := none
  requirements : Option String := none
  virtualenv : Option String := none
  virtualenv_site_packages : Bool := false
  virtualenv_command : Option String := none
  virtualenv_python : Option String := none
  extra_args : Option String := none
  editable : Bool := false
  chdir : Option String := none
  executable : Option String := none
  umask : Option String := none
  break_system_packages : Bool := false
  check_mode : Bool := false

/-- Python truthiness of an optional string parameter. -/
def optTruthy : Option String → Bool
  | some s => s ≠ ""
  | none => false

/-- Truthiness of the `name` parameter (a list: non-`None` and non-empty). -/
def nameTruthy (p : Params) : Bool :=
  match p.name with
  | some l => !l.isEmpty
  | none => false

/-- Truthiness of the `requirements` parameter. -/
def reqTruthy (p : Params) : Bool :=
  optTruthy p.requirements

/-- The `env` local after `pip.py` lines 534-538: the `virtualenv` parameter,
joined under `chdir` when both are truthy. -/
def envEffOf (p : Params) : Option String :=
  match p.virtualenv with
  | none => none
  | some e =>
    if e ≠ "" && optTruthy p.chdir then some (pyJoin (p.chdir.getD "") e)
    else some e

/-- Models `py_bin` when no virtualenv is in play (`pip.py` line 567):
`module.params['executable'] or sys.executable`, where the parameter
defaults to `"uv pip"`. -/
def pyBinDefault (p : Params) (w : World) : String :=
  let ex := p.executable.getD "uv pip"
  if ex ≠ "" then ex else w.sys_executable

/-- The `extra_args` local after the `editable` block (`pip.py` lines
610-617): when `editable` is set and `-e` is not already among the
space-separated pieces, it is appended. -/
def finalExtraArgs (p : Params) : Option String :=
  if p.editable then
    let args_list :=
      match p.extra_args with
      | some ea => if ea ≠ "" then pySplitCh ' ' ea else []
      | none => []
    if !args_list.contains "-e" then some (pyJoinSep " " (args_list ++ ["-e"]))
    else p.extra_args
  else p.extra_args

/-- The fatal message of `pip.py` line 445. -/
def venvPythonMsg : String :=
  "virtualenv_python should not be used when using the venv module or pyvenv as virtualenv_command"

/-- The fatal message of `pip.py` line 598. -/
def ambiguousVersionMsg : String :=
  "'version' argument is ambiguous when installing multiple package distributions. Please specify version restrictions next to each package in 'name' argument."

/-- The fatal message of `pip.py` line 603. -/
def conflictVersionMsg : String :=
  "The 'version' argument conflicts with any version specifier provided along with a package name. Please keep the version specifier, but remove the 'version' argument."

/-- Models `setup_virtualenv`, step 1 (`pip.py` lines 410-413): resolve a bare
first command token on the search path (`get_bin_path(_, required=True)`;
the failure message is the framework's); a token containing a slash is used
verbatim. -/
def setup_resolve (w : World) (c0 : String) (c : Ctx) : Step String :=
  if pyBasename c0 = c0 then
    match w.bin_path c0 with
    | some pth => .next pth c
    | none => .done (.failed ("Failed to find required executable " ++ c0 ++ " in paths")) c
  else .next c0 c

/-- Models `setup_virtualenv`, step 2 (`pip.py` lines 415-424): append
`--system-site-packages` when inheritance is requested; otherwise probe the
tool's `--help` output and append `--no-site-packages` only when
advertised. -/
def setup_site (p : Params) (w : World) (exe : String) (rest : List String)
    (c : Ctx) : Step (List String) :=
  if p.virtualenv_site_packages then
    .next (exe :: rest ++ ["--system-site-packages"]) c
  else
    match _get_cmd_options_m w exe c with
    | .done t c => .done t c
    | .next opts c =>
      if opts.contains "--no-site-packages" then
        .next (exe :: rest ++ ["--no-site-packages"]) c
      else .next (exe :: rest) c

/-- Models `setup_virtualenv`, step 3 (`pip.py` lines 430-448): append
`-p<interpreter>` for virtualenv-style commands (the caller-supplied
interpreter when truthy, else `sys.executable`); fail for venv-style
commands given an explicit `virtualenv_python`. -/
def setup_py (p : Params) (w : World) (vcmd : String) (cmd2 : List String)
    (c : Ctx) : Step (List String) :=
  if !_is_venv_command vcmd then
    .next (cmd2 ++ ["-p" ++ (if optTruthy p.virtualenv_python then
      p.virtualenv_python.getD "" else w.sys_executable)]) c
  else if optTruthy p.virtualenv_python then
    .done (.failed venvPythonMsg) c
  else .next cmd2 c

/-- Models `setup_virtualenv` (`pip.py` line 404).  In check mode it exits
immediately with `changed=true`.  Otherwise it builds the provisioning
command from `virtualenv_command` (default `"uv venv"`; an empty command
raises `IndexError` on `cmd[0]`), resolves, handles site-packages, pins
`--python-preference only-system`, handles the interpreter flag, appends
the environment path and runs the command (non-zero exit fatal). -/
def setup_virtualenv_m (p : Params) (w : World) (env : String)
    (out err : String) (c : Ctx) : Step (String × String) :=
  if p.check_mode then .done (.exited true none) c
  else
    let vcmd := p.virtualenv_command.getD "uv venv"
    match pyShlexSplit vcmd with
    | [] => .done .crashed c
    | c0 :: rest =>
      match setup_resolve w c0 c with
      | .done t c => .done t c
      | .next exe c =>
        match setup_site p w exe rest c with
        | .done t c => .done t c
        | .next cmd1 c =>
          let cmd2 := cmd1 ++ ["--python-preference", "only-system"]
          match setup_py p w vcmd cmd2 c with
          | .done t c => .done t c
          | .next cmd3 c =>
            let cmd4 := cmd3 ++ [env]
            let (r, c) := runCmd w c cmd4
            let out := out ++ r.out
            let err := err ++ r.err
            if r.rc ≠ 0 then .done (.failed (_fail_msg out err)) c
            else .next (out, err) c

/-- Tail of the change computation (`pip.py` lines 666-679): pick the change
signal per state, apply the `venv_created` override, and exit. -/
def finishChanged (p : Params) (w : World) (pip cmd : List String)
    (ofb : Option String) (r : RunResult) (c : Ctx) : MainResult :=
  let changedStep : Step Bool :=
    if p.state = .absent then
      .next (inStr "Successfully uninstalled" r.out) c
    else
      match ofb with
      | none => .next (inStr "Successfully installed" r.out) c
      | some before =>
        match _get_packages_m w pip c with
        | .done t c => .done t c
        | .next (_, after, _) c => .next (before != after) c
  match changedStep with
  | .done t c => finish t c
  | .next changed c => finish (.exited (changed || c.venv_created) (some cmd)) c

/-- The multiline regex scan of `pip.py` line 649: some line of the dry-run
stderr starts with `Would uninstall` or `Would install`. -/
def wouldChangeLine (s : String) : Bool :=
  (pySplitCh '\n' s).any fun ln =>
    strStartsWith ln "Would uninstall" || strStartsWith ln "Would install"

/-- Models `main` from the check-mode branch onwards (`pip.py` lines 637-679):
either the conservative check-mode exits / the `--dry-run` probe, or the
optional before-snapshot, the real command, the whitelisted
`state=absent` + `not installed` no-op, and the change computation. -/
def mainRunPhase (p : Params) (w : World) (pip cmd : List String)
    (has_vcs : Bool) (out err : String) (c : Ctx) : MainResult :=
  if p.check_mode then
    if optTruthy (finalExtraArgs p) || reqTruthy p || p.state = .latest || !nameTruthy p then
      finish (.exited true none) c
    else
      let cmd := cmd ++ ["--dry-run"]
      let (r, c) := runCmd w c cmd
      let out := out ++ r.out
      let err := err ++ r.err
      if r.rc ≠ 0 then finish (.failed (_fail_msg out err)) c
      else
        finish (.exited (wouldChangeLine r.err) (some cmd)) c
  else
    let snap : Step (Option String) :=
      if reqTruthy p || has_vcs then
        match _get_packages_m w pip c with
        | .done t c => .done t c
        | .next (_, ofb, _) c => .next (some ofb) { c with out_freeze_before := some ofb }
      else .next none c
    match snap with
    | .done t c => finish t c
    | .next ofb c =>
      let (r, c) := runCmd w c cmd
      let out := out ++ r.out
      let err := err ++ r.err
      if r.rc = 1 && p.state = .absent
          && (inStr "not installed" r.out || inStr "not installed" r.err) then
        finishChanged p w pip cmd ofb r c
      else if r.rc ≠ 0 then finish (.failed (_fail_msg out err)) c
      else finishChanged p w pip cmd ofb r c

/-- Models `main` from the editable block onwards (`pip.py` lines 610-635): fold
`-e` into `extra_args`, extend the command with the extra arguments, set the
PEP-668 environment flag, append the package list or the requirements-file
reference (exiting as an unchanged no-op when neither is present), and hand
over to the run phase. -/
def mainRest (p : Params) (w : World) (pip cmd : List String)
    (packages : List String) (has_vcs : Bool) (out err : String) (c : Ctx) : MainResult :=
  let extra := finalExtraArgs p
  let cmd := cmd ++ (match extra with
    | some ea => if ea ≠ "" then pyShlexSplit ea else []
    | none => [])
  let c := if p.break_system_packages then { c with pip_break_env := true } else c
  if nameTruthy p then
    let cmd := cmd ++ packages
    mainRunPhase p w pip cmd has_vcs out err { c with cmd_built := some cmd }
  else if reqTruthy p then
    let cmd := cmd ++ ["-r", p.requirements.getD ""]
    mainRunPhase p w pip cmd has_vcs out err { c with cmd_built := some cmd }
  else
    finish (.exited false none) c

/-- The tail of `main`'s `try` body from pip resolution onwards
(`pip.py` lines 569-608): the base command, and the `name` block (VCS
detection, specifier reconstruction, and the `version` override validation
and splice). -/
def bodyTail (p : Params) (w : World) (out err py_bin : String) (c : Ctx) : MainResult :=
  match _get_pip_m w (some (p.executable.getD "uv pip")) c with
  | .done t c => finish t c
  | .next pip c =>
    let cmd := pip ++ state_map p.state ++ ["--python", py_bin]
    match p.name with
    | some l =>
      if !l.isEmpty then
        let has_vcs := l.any fun pkg => pkg ≠ "" && _is_vcs_url pkg
        let packages := _recover_package_name l
        match p.version with
        | some v =>
          if packages.length > 1 then finish (.failed ambiguousVersionMsg) c
          else
            match packages with
            | [] => finish .crashed c
            | p0 :: prest =>
              if has_version_specifier p0 then finish (.failed conflictVersionMsg) c
              else mainRest p w pip cmd ((p0 ++ "==" ++ v) :: prest) has_vcs out err c
        | none => mainRest p w pip cmd packages has_vcs out err c
      else mainRest p w pip cmd [] false out err c
    | none => mainRest p w pip cmd [] false out err c

/-- The body of the `try` block of `main` (`pip.py` lines 551-608): the
`state=latest` / `version` guard, the `chdir` default, optional virtualenv
provisioning and the interpreter path, then `bodyTail`. -/
def bodyModel (p : Params) (w : World) (c : Ctx) : MainResult :=
  if p.state = .latest && p.version.isSome then
    finish (.failed "version is incompatible with state=latest") c
  else
    let env := envEffOf p
    let envStep : Step (String × String × String) :=
      match env with
      | some e =>
        if e ≠ "" then
          if !w.path_exists (pyJoin (pyJoin e "bin") "activate") then
            match setup_virtualenv_m p w e "" "" { c with venv_created := true } with
            | .done t c => .done t c
            | .next (out, err) c => .next (out, err, pyJoin (pyJoin e "bin") "python") c
          else .next ("", "", pyJoin (pyJoin e "bin") "python") c
        else .next ("", "", pyBinDefault p w) c
      | none => .next ("", "", pyBinDefault p w) c
    match envStep with
    | .done t c => finish t c
    | .next (out, err, py_bin) c => bodyTail p w out err py_bin c

/-- The `AnsibleModule` construction-time validation induced by the
`argument_spec` of `pip.py` lines 505-525.  Modelled from the spec:
`required_one_of=[['name', 'requirements']]` and
`mutually_exclusive=[['name', 'requirements'], ['executable', 'virtualenv']]`
are enforced by the framework against the caller-supplied options before
`main`'s own code runs (the message texts are the framework's). -/
def ansibleValidate (p : Params) : Option String :=
  if p.name.isNone && p.requirements.isNone then
    some "one of the following is required: name, requirements"
  else if p.name.isSome && p.requirements.isSome then
    some "parameters are mutually exclusive: name|requirements"
  else if p.executable.isSome && p.virtualenv.isSome then
    some "parameters are mutually exclusive: executable|virtualenv"
  else none

/-- Models `main` (`pip.py` line 497): framework validation, the umask override
(`pip.py` lines 540-549; an empty string skips conversion but reaches
`os.umask("")`, a `TypeError`), the `try` body, and the `finally` block that
restores the previous umask whenever one was set. -/
def mainModel (p : Params) (w : World) : MainResult :=
  let c0 : Ctx := { umask := w.initial_umask }
  match ansibleValidate p with
  | some m => finish (.failed m) c0
  | none =>
    match p.umask with
    | none => bodyModel p w c0
    | some s =>
      if s = "" then finish .crashed c0
      else
        match pyIntOctal s with
        | none => finish (.failed "umask must be an octal integer") c0
        | some v =>
          let r := bodyModel p w { c0 with umask := v }
          { r with umask := c0.umask }

/-! ## Proof-support definitions -/

/-- Separator-interleaved concatenation on character lists; the image of
`pyJoinSep` under `String.data`. -/
def charJoin (sep : Char) : List (List Char) → List Char
  | [] => []
  | [x] => x
  | x :: y :: t => x ++ sep :: charJoin sep (y :: t)

/-- The output list `_recover_package_name` produces from a scan state
(`pip.py` lines 336-337). -/
def scanOut (s : RecoverState) : List String :=
  s.package_names ++ [pyJoinSep "," s.name_parts]

/-! ## Concrete runs used by the counterexample and witness theorems -/

/-- A world in which nothing exists, no executable resolves, and every
subprocess would report success with empty output. -/
def wInert : World :=
  { path_exists := fun _ => false
    bin_path := fun _ => none
    runs := fun _ => ⟨0, "", ""⟩
    sys_executable := "/usr/bin/python3"
    tempdir := "/tmp"
    initial_umask := 18 }

/-- An executable table resolving only `uv`. -/
def binUv : String → Option String :=
  fun s => if s = "uv" then some "/usr/bin/uv" else none

/-- Models `state=latest` with a single unconstrained name and a `version`
override. -/
def pLatestVersion : Params :=
  { state := .latest, name := some ["six"], version := some "1.0" }

/-- A run that must splice `==2.5.1` into its single requirement. -/
def pSpliceVersion : Params :=
  { name := some ["six"], version := some "2.5.1" }

/-- A world where `uv` resolves and every subprocess succeeds silently. -/
def wUv : World :=
  { wInert with bin_path := binUv }

/-- Models `state=absent` under a fresh virtualenv (site-packages inheritance on,
so provisioning needs no capability probe). -/
def pAbsentVenv : Params :=
  { state := .absent, name := some ["six"], virtualenv := some "/v",
    virtualenv_site_packages := true }

/-- World for `pAbsentVenv`: provisioning succeeds, the uninstall exits 1
with a `not installed` marker. -/
def wAbsentVenv : World :=
  { wInert with
    bin_path := binUv
    runs := fun n => if n = 0 then ⟨0, "", ""⟩ else ⟨1, "", "six is not installed"⟩ }

/-- A plain `state=absent` run on one name. -/
def pAbsentPlain : Params :=
  { state := .absent, name := some ["six"] }

/-- World for `pAbsentPlain`: the uninstall exits 1 with the marker and no
uninstall-success marker. -/
def wAbsentPlain : World :=
  { wInert with
    bin_path := binUv
    runs := fun _ => ⟨1, "", "six is not installed"⟩ }

/-- Models `state=present` under a fresh virtualenv. -/
def pPresentVenv : Params :=
  { state := .present, name := some ["six"], virtualenv := some "/v",
    virtualenv_site_packages := true }

/-- World for `pPresentVenv`: provisioning succeeds and the install succeeds
without an install-success marker. -/
def wPresentVenv : World :=
  { wInert with
    bin_path := binUv
    runs := fun n => if n = 0 then ⟨0, "", ""⟩ else ⟨0, "Audited 1 package", ""⟩ }

/-- A VCS-source install, which snapshots the package list around the
command. -/
def pVcs : Params :=
  { state := .present, name := some ["git+http://myrepo/app/MyApp"] }

/-- World for `pVcs`: the before snapshot lists `six==1.15.0`, the install
succeeds, and the after snapshot lists `six==1.16.0`. -/
def wVcs : World :=
  { wInert with
    bin_path := binUv
    runs := fun n =>
      if n = 0 then ⟨0, "six==1.15.0", ""⟩
      else if n = 1 then ⟨0, "", ""⟩
      else ⟨0, "six==1.16.0", ""⟩ }

/-- World for `pVcs` with identical before and after snapshots. -/
def wVcsSame : World :=
  { wInert with
    bin_path := binUv
    runs := fun n =>
      if n = 1 then ⟨0, "", ""⟩ else ⟨0, "six==1.15.0", ""⟩ }

/-- Check mode with an empty `name` list and no requirements file. -/
def pCheckEmptyName : Params :=
  { name := some [], check_mode := true }

/-- Check mode on a plain single-name install. -/
def pCheckPlain : Params :=
  { name := some ["six"], check_mode := true }

/-- World for `pCheckPlain`: the `--dry-run` probe reports a pending
install on stderr. -/
def wCheckPlain : World :=
  { wInert with
    bin_path := binUv
    runs := fun _ => ⟨0, "", "Would install six\n"⟩ }

/-- A venv-style provisioning command together with an explicit
`virtualenv_python`, with site-packages inheritance off so the capability
probe runs. -/
def pVenvStyle : Params :=
  { name := some ["six"], virtualenv := some "/v",
    virtualenv_command := some "python3 -m venv",
    virtualenv_python := some "python3.12" }

/-- World for `pVenvStyle`: `python3` resolves and the `--help` probe
succeeds. -/
def wVenvStyle : World :=
  { wInert with
    bin_path := fun s =>
      if s = "python3" then some "/usr/bin/python3"
      else if s = "uv" then some "/usr/bin/uv" else none
    runs := fun _ => ⟨0, "usage: venv", ""⟩ }

/-- A fresh virtualenv requested together with an empty `name` list. -/
def pVenvEmptyName : Params :=
  { name := some [], virtualenv := some "/v", virtualenv_site_packages := true }

/-- World for `pVenvEmptyName` and `pVenvMarker`: `uv` resolves and every
subprocess succeeds. -/
def wVenvQuiet : World :=
  { wInert with bin_path := binUv }

/-- A fresh-virtualenv install whose main command reports success. -/
def pVenvMarker : Params :=
  { state := .present, name := some ["six"], virtualenv := some "/v",
    virtualenv_site_packages := true }

/-- World for `pVenvMarker`: provisioning succeeds and the install prints
the success marker. -/
def wVenvMarker : World :=
  { wInert with
    bin_path := binUv
    runs := fun n => if n = 0 then ⟨0, "", ""⟩ else ⟨0, "Successfully installed six", ""⟩ }

/-- A valid umask override on a plain install. -/
def pUmask : Params :=
  { name := some ["six"], umask := some "0022" }

/-- The fully built main command of a plain run (no virtualenv, default
executable), as assembled by `pip.py` lines 571-630 for a given final
package list. -/
def builtCmd (p : Params) (u : String) (packages : List String) : List String :=
  [u, "pip"] ++ state_map p.state ++ ["--python", "uv pip"]
    ++ (match finalExtraArgs p with
        | some ea => if ea ≠ "" then pyShlexSplit ea else []
        | none => []) ++ packages

/-- The fully built main command of a plain requirements-file run. -/
def builtCmdReq (p : Params) (u : String) (rq : String) : List String :=
  [u, "pip"] ++ state_map p.state ++ ["--python", "uv pip"]
    ++ (match finalExtraArgs p with
        | some ea => if ea ≠ "" then pyShlexSplit ea else []
        | none => []) ++ ["-r", rq]

/-! ## Basic facts about the string primitives -/

theorem str_data_append (a b : String) : (a ++ b).data = a.data ++ b.data := by
  cases a; cases b; rfl

theorem str_mk_data (s : String) : String.mk s.data = s := rfl

theorem joinComma_data (xs : List String) :
    (pyJoinSep "," xs).data = charJoin ',' (xs.map String.data) := by
  match xs with
  | [] => rfl
  | [x] => rfl
  | x :: y :: t =>
    have ih := joinComma_data (y :: t)
    simp only [pyJoinSep, charJoin, List.map, str_data_append, ih]
    simp

theorem splitChAux_ne_nil (sep : Char) (cs acc : List Char) :
    splitChAux sep cs acc ≠ [] := by
  induction cs generalizing acc with
  | nil => simp [splitChAux]
  | cons c cs ih =>
    simp only [splitChAux]
    split
    · simp
    · exact ih _

theorem charJoin_splitChAux (cs acc : List Char) :
    charJoin ',' (splitChAux ',' cs acc) = acc.reverse ++ cs := by
  induction cs generalizing acc with
  | nil => simp [splitChAux, charJoin]
  | cons c cs ih =>
    simp only [splitChAux]
    by_cases h : c = ','
    · simp only [if_pos h]
      obtain ⟨d, ds, hds⟩ : ∃ d ds, splitChAux ',' cs [] = d :: ds := by
        cases hh : splitChAux ',' cs [] with
        | nil => exact absurd hh (splitChAux_ne_nil ',' cs [])
        | cons d ds => exact ⟨d, ds, rfl⟩
      rw [hds, charJoin, ← hds, ih]
      simp [h]
    · simp only [if_neg h]
      rw [ih]
      simp

theorem charJoin_append (sep : Char) (q r : List (List Char)) (hq : q ≠ []) (hr : r ≠ []) :
    charJoin sep (q ++ r) = charJoin sep q ++ sep :: charJoin sep r := by
  induction q with
  | nil => exact absurd rfl hq
  | cons x q ih =>
    cases q with
    | nil =>
      cases r with
      | nil => exact absurd rfl hr
      | cons y t => simp [charJoin]
    | cons x' q' =>
      have h2 := ih (by simp)
      have h3 : charJoin sep ((x :: x' :: q') ++ r) = x ++ sep :: charJoin sep ((x' :: q') ++ r) := rfl
      rw [h3, h2]
      simp [charJoin]


theorem flatMap_split_ne_nil (names : List String) (h : names ≠ []) :
    names.flatMap (fun x => pySplitCh ',' x) ≠ [] := by
  cases names with
  | nil => exact absurd rfl h
  | cons x ns =>
    simp only [List.flatMap_cons]
    intro hempty
    rcases List.append_eq_nil.mp hempty with ⟨h1, h2⟩
    have := splitChAux_ne_nil ',' x.data []
    simp [pySplitCh] at h1
    exact this h1

theorem map_data_mk (ls : List (List Char)) :
    ls.map (String.data ∘ String.mk) = ls := by
  induction ls with
  | nil => rfl
  | cons a l ih => simp only [List.map_cons, ih]; rfl

theorem charJoin_flatten (names : List String) (h : names ≠ []) :
    charJoin ',' ((names.flatMap fun x => pySplitCh ',' x).map String.data)
      = charJoin ',' (names.map String.data) := by
  induction names with
  | nil => exact absurd rfl h
  | cons x ns ih =>
    have hA : List.map String.data (pySplitCh ',' x) = splitChAux ',' x.data [] := by
      simp only [pySplitCh, List.map_map]; exact map_data_mk _
    cases hns : ns with
    | nil =>
      simp only [List.flatMap_cons, List.flatMap_nil, List.append_nil, List.map]
      rw [hA, charJoin_splitChAux]
      rfl
    | cons y t =>
      subst hns
      have hAne : List.map String.data (pySplitCh ',' x) ≠ [] := by
        rw [hA]; exact splitChAux_ne_nil ',' x.data []
      have hBne : List.map String.data ((y :: t).flatMap fun s => pySplitCh ',' s) ≠ [] := by
        intro hc
        exact flatMap_split_ne_nil (y :: t) (by simp) (List.map_eq_nil_iff.mp hc)
      rw [List.flatMap_cons, List.map_append, charJoin_append ',' _ _ hAne hBne,
        hA, charJoin_splitChAux, ih (by simp)]
      have hr : charJoin ',' ((x :: y :: t).map String.data)
          = x.data ++ ',' :: charJoin ',' ((y :: t).map String.data) := rfl
      rw [hr]
      simp

/-! ## Structure of the reconstruction scan -/

theorem recoverStep_name_parts (s : RecoverState) (t : String) :
    (recoverStep s t).name_parts
      = (if _is_package_name t && !s.in_brackets then [] else s.name_parts) ++ [t] := by
  simp only [recoverStep]
  repeat' split
  all_goals rfl

theorem recoverStep_package_names (s : RecoverState) (t : String) :
    (recoverStep s t).package_names
      = if _is_package_name t && !s.in_brackets then
          (if s.name_parts ≠ [] then s.package_names ++ [pyJoinSep "," s.name_parts]
           else s.package_names)
        else s.package_names := by
  simp only [recoverStep]
  repeat' split
  all_goals rfl

theorem recoverStep_in_brackets (s : RecoverState) (t : String) :
    (recoverStep s t).in_brackets
      = (if (if t.data.contains '[' then true else s.in_brackets) && t.data.contains ']'
         then false
         else (if t.data.contains '[' then true else s.in_brackets)) := by
  simp only [recoverStep]
  repeat' split
  all_goals simp_all

theorem charJoin_last (y z : List Char) (A : List (List Char)) :
    charJoin ',' (A ++ [y ++ ',' :: z]) = charJoin ',' (A ++ [y]) ++ ',' :: z := by
  induction A with
  | nil => simp [charJoin]
  | cons a A' ih =>
    cases A' with
    | nil => simp [charJoin]
    | cons a' A'' =>
      have h1 : charJoin ',' ((a :: a' :: A'') ++ [y ++ ',' :: z])
          = a ++ ',' :: charJoin ',' ((a' :: A'') ++ [y ++ ',' :: z]) := rfl
      have h2 : charJoin ',' ((a :: a' :: A'') ++ [y])
          = a ++ ',' :: charJoin ',' ((a' :: A'') ++ [y]) := rfl
      rw [h1, h2, ih]
      simp

/-- The scan invariant behind `claim_C10`: after processing `done`, joining
the emitted requirements and the current buffer with commas reproduces the
comma-join of the processed tokens. -/
def JoinInv (done : List String) (s : RecoverState) : Prop :=
  (done = [] → s.name_parts = [] ∧ s.package_names = []) ∧
  (done ≠ [] → s.name_parts ≠ [] ∧
    charJoin ',' ((scanOut s).map String.data) = charJoin ',' (done.map String.data))

theorem joinInv_step (done : List String) (s : RecoverState) (t : String)
    (h : JoinInv done s) : JoinInv (done ++ [t]) (recoverStep s t) := by
  constructor
  · intro hc; simp at hc
  · intro _
    constructor
    · rw [recoverStep_name_parts]; simp
    · by_cases hdone : done = []
      · subst hdone
        obtain ⟨hp, hq⟩ := h.1 rfl
        simp only [scanOut, recoverStep_name_parts, recoverStep_package_names, hp, hq]
        split
        · simp [charJoin, pyJoinSep]
        · simp [charJoin, pyJoinSep]
      · obtain ⟨hparts, hJ⟩ := h.2 hdone
        have hdonem : done.map String.data ≠ [] := by
          simpa using hdone
        by_cases hA : (_is_package_name t && !s.in_brackets) = true
        · -- boundary: the buffer is emitted, the new buffer is [t]
          simp only [scanOut, recoverStep_name_parts, recoverStep_package_names, hA,
            if_pos hparts, if_true, List.nil_append]
          have hform :
              ((s.package_names ++ [pyJoinSep "," s.name_parts]) ++ [pyJoinSep "," [t]]).map String.data
                = (scanOut s).map String.data ++ [t.data] := by
            simp [scanOut, pyJoinSep]
          rw [hform, charJoin_append ',' _ _ (by simp [scanOut]) (by simp), hJ]
          rw [List.map_append, charJoin_append ',' _ _ hdonem (by simp)]
          rfl
        · -- continuation: the token joins the current buffer
          simp only [scanOut, recoverStep_name_parts, recoverStep_package_names, hA,
            if_false, Bool.false_eq_true, if_neg]
          have hjoin : (pyJoinSep "," (s.name_parts ++ [t])).data
              = (pyJoinSep "," s.name_parts).data ++ ',' :: t.data := by
            rw [joinComma_data, joinComma_data, List.map_append]
            exact charJoin_append ',' _ _ (by simpa using hparts) (by simp)
          have hform : (s.package_names ++ [pyJoinSep "," (s.name_parts ++ [t])]).map String.data
              = s.package_names.map String.data
                ++ [(pyJoinSep "," s.name_parts).data ++ ',' :: t.data] := by
            simp [hjoin]
          rw [hform, charJoin_last]
          have hscan : (scanOut s).map String.data
              = s.package_names.map String.data ++ [(pyJoinSep "," s.name_parts).data] := by
            simp [scanOut]
          rw [← hscan, hJ, List.map_append, charJoin_append ',' _ _ hdonem (by simp)]
          rfl

theorem joinInv_fold (ts : List String) :
    ∀ (done : List String) (s : RecoverState), JoinInv done s →
      JoinInv (done ++ ts) (ts.foldl recoverStep s) := by
  induction ts with
  | nil => intro done s h; simpa using h
  | cons t ts ih =>
    intro done s h
    have h1 := joinInv_step done s t h
    have h2 := ih (done ++ [t]) (recoverStep s t) h1
    simpa using h2

/-- C1: the Specifier Reconstructor maps the split input list and the
pre-joined input list to exactly the documented output list
(`pip.py` lines 309-314). -/
theorem claim_C1 :
    _recover_package_name ["django>1.11.1", "<1.11.3", "ipaddress", "simpleproject>1.1.0", "<2.0.0"]
      = ["django>1.11.1,<1.11.3", "ipaddress", "simpleproject>1.1.0,<2.0.0"]
    ∧ _recover_package_name ["django>1.11.1,<1.11.3,ipaddress", "simpleproject>1.1.0,<2.0.0"]
      = ["django>1.11.1,<1.11.3", "ipaddress", "simpleproject>1.1.0,<2.0.0"] := by
  constructor <;> decide

/-- C10: for every non-empty input list, joining the reconstructor's output
with `,` reproduces the comma-join of the input: the reconstructor only
regroups the comma-separated tokens. -/
theorem claim_C10 (names : List String) (h : names ≠ []) :
    pyJoinSep "," (_recover_package_name names) = pyJoinSep "," names := by
  have hbase : JoinInv [] ⟨[], [], false⟩ :=
    ⟨fun _ => ⟨rfl, rfl⟩, fun hc => absurd rfl hc⟩
  have hinv := joinInv_fold (names.flatMap fun x => pySplitCh ',' x) [] _ hbase
  simp only [List.nil_append] at hinv
  have htoks := flatMap_split_ne_nil names h
  obtain ⟨-, hJ⟩ := hinv.2 htoks
  apply String.ext
  rw [joinComma_data, joinComma_data]
  have hout : _recover_package_name names
      = scanOut (recoverScan (names.flatMap fun x => pySplitCh ',' x)) := rfl
  rw [hout]
  have hscan : recoverScan (names.flatMap fun x => pySplitCh ',' x)
      = (names.flatMap fun x => pySplitCh ',' x).foldl recoverStep ⟨[], [], false⟩ := rfl
  rw [hscan, hJ]
  exact charJoin_flatten names h

/-- Witness for C10 at a concrete input. -/
theorem claim_C10_witness :
    (["a>1,b"] : List String) ≠ []
    ∧ pyJoinSep "," (_recover_package_name ["a>1,b"]) = pyJoinSep "," ["a>1,b"] :=
  ⟨by decide, claim_C10 ["a>1,b"] (by decide)⟩

theorem rs_ib_step (s : RecoverState) (t : String) (hib : s.in_brackets = true)
    (ht : t.data.contains ']' = false) :
    (recoverStep s t).in_brackets = true
    ∧ (recoverStep s t).package_names = s.package_names
    ∧ (recoverStep s t).name_parts = s.name_parts ++ [t] := by
  refine ⟨?_, ?_, ?_⟩
  · rw [recoverStep_in_brackets, ht]
    simp [hib]
  · rw [recoverStep_package_names]
    simp [hib]
  · rw [recoverStep_name_parts]
    simp [hib]

theorem rs_ib_fold (mid : List String) :
    ∀ (s : RecoverState), s.in_brackets = true →
      (∀ x ∈ mid, x.data.contains ']' = false) →
      (mid.foldl recoverStep s).in_brackets = true
      ∧ (mid.foldl recoverStep s).package_names = s.package_names
      ∧ (mid.foldl recoverStep s).name_parts = s.name_parts ++ mid := by
  induction mid with
  | nil => intro s hib _; exact ⟨hib, rfl, by simp⟩
  | cons m mid ih =>
    intro s hib hall
    obtain ⟨h1, h2, h3⟩ := rs_ib_step s m hib (hall m (by simp))
    obtain ⟨g1, g2, g3⟩ := ih (recoverStep s m) h1 (fun x hx => hall x (by simp [hx]))
    refine ⟨?_, ?_, ?_⟩
    · simpa only [List.foldl_cons] using g1
    · simp only [List.foldl_cons]; rw [g2, h2]
    · simp only [List.foldl_cons]; rw [g3, h3]; simp

theorem rs_close_step (s : RecoverState) (u : String) (hib : s.in_brackets = true) :
    (recoverStep s u).package_names = s.package_names
    ∧ (recoverStep s u).name_parts = s.name_parts ++ [u] := by
  constructor
  · rw [recoverStep_package_names]; simp [hib]
  · rw [recoverStep_name_parts]; simp [hib]

theorem rs_open_step (s : RecoverState) (t : String)
    (h1 : t.data.contains '[' = true) (h2 : t.data.contains ']' = false) :
    (recoverStep s t).in_brackets = true
    ∧ ∃ l, (recoverStep s t).name_parts = l ++ [t] := by
  constructor
  · rw [recoverStep_in_brackets, h1, h2]
    simp
  · rw [recoverStep_name_parts]
    exact ⟨_, rfl⟩

theorem scan_parts_mem (Q : String → Prop) (ts : List String) :
    ∀ (s : RecoverState), (∀ x ∈ s.name_parts, Q x) → (∀ x ∈ ts, Q x) →
      ∀ x ∈ (ts.foldl recoverStep s).name_parts, Q x := by
  induction ts with
  | nil => intro s hs _ x hx; exact hs x hx
  | cons t ts ih =>
    intro s hs hts
    apply ih
    · intro x hx
      rw [recoverStep_name_parts] at hx
      rcases List.mem_append.mp hx with hx1 | hx1
      · split at hx1
        · simp at hx1
        · exact hs x hx1
      · simp at hx1
        subst hx1
        exact hts x (by simp)
    · intro x hx
      exact hts x (by simp [hx])

theorem splitChAux_commafree (cs : List Char) (h : cs.contains ',' = false) :
    ∀ acc, splitChAux ',' cs acc = [acc.reverse ++ cs] := by
  induction cs with
  | nil => intro acc; simp [splitChAux]
  | cons c cs ih =>
    intro acc
    have h1 : (',' == c) = false ∧ cs.contains ',' = false := by
      simpa [List.contains_cons, Bool.or_eq_false_iff] using h
    simp only [splitChAux]
    rw [if_neg (fun hcc => by simp [hcc] at h1)]
    rw [ih h1.2 (c :: acc)]
    simp

theorem splitCh_commafree (x : String) (h : x.data.contains ',' = false) :
    pySplitCh ',' x = [x] := by
  simp only [pySplitCh, splitChAux_commafree x.data h []]
  rfl

theorem flatten_commafree (ts : List String) (h : ∀ x ∈ ts, x.data.contains ',' = false) :
    (ts.flatMap fun x => pySplitCh ',' x) = ts := by
  induction ts with
  | nil => rfl
  | cons x ts ih =>
    rw [List.flatMap_cons, splitCh_commafree x (h x (by simp)), ih (fun y hy => h y (by simp [hy]))]
    rfl

theorem splitChAux_append_comma (rest : List Char) (cs : List Char)
    (h : cs.contains ',' = false) :
    ∀ acc, splitChAux ',' (cs ++ ',' :: rest) acc
      = (acc.reverse ++ cs) :: splitChAux ',' rest [] := by
  induction cs with
  | nil => intro acc; simp [splitChAux]
  | cons c cs ih =>
    intro acc
    have h1 : (',' == c) = false ∧ cs.contains ',' = false := by
      simpa [List.contains_cons, Bool.or_eq_false_iff] using h
    simp only [List.cons_append, splitChAux]
    rw [if_neg (fun hcc => by simp [hcc] at h1)]
    have hgoal : splitChAux ',' (cs.append (',' :: rest)) (c :: acc)
        = splitChAux ',' (cs ++ ',' :: rest) (c :: acc) := rfl
    rw [hgoal, ih h1.2 (c :: acc)]
    simp

theorem split_join_commafree (xs : List String) (hne : xs ≠ [])
    (h : ∀ x ∈ xs, x.data.contains ',' = false) :
    pySplitCh ',' (pyJoinSep "," xs) = xs := by
  induction xs with
  | nil => exact absurd rfl hne
  | cons x xs ih =>
    cases xs with
    | nil => exact splitCh_commafree x (h x (by simp))
    | cons y t =>
      have hx : x.data.contains ',' = false := h x (by simp)
      have hjoin : (pyJoinSep "," (x :: y :: t)).data
          = x.data ++ ',' :: (pyJoinSep "," (y :: t)).data := by
        have hstep : pyJoinSep "," (x :: y :: t) = x ++ "," ++ pyJoinSep "," (y :: t) := rfl
        rw [hstep, str_data_append, str_data_append]
        simp
      have htail := ih (by simp) (fun z hz => h z (by simp [hz]))
      simp only [pySplitCh] at htail ⊢
      rw [hjoin, splitChAux_append_comma _ _ hx []]
      simp only [List.reverse_nil, List.nil_append, List.map_cons, htail]

theorem rs_suffix (rest : List String) :
    ∀ (s : RecoverState), s.name_parts ≠ [] →
      ∃ e tl, scanOut (rest.foldl recoverStep s)
          = s.package_names ++ (pyJoinSep "," (s.name_parts ++ e)) :: tl
        ∧ ∀ x ∈ e, x ∈ rest := by
  induction rest with
  | nil =>
    intro s hs
    exact ⟨[], [], by simp [scanOut], by simp⟩
  | cons r rest ih =>
    intro s hs
    obtain ⟨e', tl', heq, hmem⟩ :=
      ih (recoverStep s r) (by rw [recoverStep_name_parts]; simp)
    by_cases hA : (_is_package_name r && !s.in_brackets) = true
    · refine ⟨[], pyJoinSep "," ([r] ++ e') :: tl', ?_, by simp⟩
      simp only [List.foldl_cons]
      rw [heq, recoverStep_package_names, recoverStep_name_parts]
      rw [if_pos hA, if_pos hA, if_pos hs]
      simp [List.append_assoc]
    · refine ⟨r :: e', tl', ?_, ?_⟩
      · simp only [List.foldl_cons]
        rw [heq, recoverStep_package_names, recoverStep_name_parts]
        rw [if_neg hA, if_neg hA]
        simp [List.append_assoc]
      · intro x hx
        rcases List.mem_cons.mp hx with hx1 | hx1
        · simp [hx1]
        · simp [hmem x hx1]

/-- C2: once a flattened token opens an extras bracket without closing it,
no new-requirement boundary is introduced up to and including the first
closing token, and those tokens are all joined by commas into the same
output requirement string. -/
theorem claim_C2 (pre mid post : List String) (t u : String)
    (hcf : ∀ x ∈ pre ++ t :: mid ++ u :: post, x.data.contains ',' = false)
    (ht1 : t.data.contains '[' = true) (ht2 : t.data.contains ']' = false)
    (hmid : ∀ x ∈ mid, x.data.contains ']' = false)
    (hu : u.data.contains ']' = true) :
    (recoverScan (pre ++ t :: mid ++ [u])).package_names
      = (recoverScan (pre ++ [t])).package_names
    ∧ ∃ r ∈ _recover_package_name (pre ++ t :: mid ++ u :: post),
        ∃ l e, pySplitCh ',' r = l ++ (t :: mid ++ [u]) ++ e := by
  have hs1eq : recoverScan (pre ++ [t]) = recoverStep (recoverScan pre) t := by
    simp [recoverScan, List.foldl_append]
  obtain ⟨hib1, l0, hl0⟩ := rs_open_step (recoverScan pre) t ht1 ht2
  obtain ⟨hib2, hpkg2, hparts2⟩ := rs_ib_fold mid (recoverStep (recoverScan pre) t) hib1 hmid
  obtain ⟨hpkg3, hparts3⟩ := rs_close_step (mid.foldl recoverStep (recoverStep (recoverScan pre) t)) u hib2
  have hs3eq : recoverScan (pre ++ t :: mid ++ [u])
      = recoverStep (mid.foldl recoverStep (recoverStep (recoverScan pre) t)) u := by
    have hlist : pre ++ t :: mid ++ [u] = ((pre ++ [t]) ++ mid) ++ [u] := by simp
    rw [hlist]
    simp [recoverScan, List.foldl_append]
  constructor
  · rw [hs3eq, hs1eq, hpkg3, hpkg2]
  · -- the full scan and its output
    have hlist2 : pre ++ t :: mid ++ u :: post = (((pre ++ [t]) ++ mid) ++ [u]) ++ post := by
      simp
    have hflat : ((pre ++ t :: mid ++ u :: post).flatMap fun x => pySplitCh ',' x)
        = pre ++ t :: mid ++ u :: post := flatten_commafree _ hcf
    have hout : _recover_package_name (pre ++ t :: mid ++ u :: post)
        = scanOut ((pre ++ t :: mid ++ u :: post).foldl recoverStep ⟨[], [], false⟩) := by
      simp only [_recover_package_name, hflat]
      rfl
    have hfold : (pre ++ t :: mid ++ u :: post).foldl recoverStep
          (⟨[], [], false⟩ : RecoverState)
        = post.foldl recoverStep
            (recoverStep (mid.foldl recoverStep (recoverStep (recoverScan pre) t)) u) := by
      rw [hlist2]
      simp [recoverScan, List.foldl_append]
    have hparts3' : (recoverStep (mid.foldl recoverStep (recoverStep (recoverScan pre) t)) u).name_parts
        = l0 ++ (t :: mid ++ [u]) := by
      rw [hparts3, hparts2, hl0]
      simp
    obtain ⟨e, tl, hscan, hemem⟩ :=
      rs_suffix post (recoverStep (mid.foldl recoverStep (recoverStep (recoverScan pre) t)) u)
        (by rw [hparts3']; simp)
    refine ⟨pyJoinSep ","
      ((recoverStep (mid.foldl recoverStep (recoverStep (recoverScan pre) t)) u).name_parts ++ e),
      ?_, l0, e, ?_⟩
    · rw [hout, hfold, hscan]
      exact List.mem_append_right _ (List.mem_cons_self _ _)
    · have hcf' : ∀ x ∈ (recoverStep (mid.foldl recoverStep (recoverStep (recoverScan pre) t)) u).name_parts ++ e,
          x.data.contains ',' = false := by
        intro x hx
        rcases List.mem_append.mp hx with hx1 | hx1
        · -- buffer elements are processed tokens
          have hscanmem := scan_parts_mem (fun x => x.data.contains ',' = false)
            (((pre ++ [t]) ++ mid) ++ [u]) ⟨[], [], false⟩ (by simp)
            (by
              intro y hy
              apply hcf
              rcases List.mem_append.mp hy with hy1 | hy1
              · rcases List.mem_append.mp hy1 with hy2 | hy2
                · rcases List.mem_append.mp hy2 with hy3 | hy3
                  · exact List.mem_append_left _ (List.mem_append_left _ hy3)
                  · simp only [List.mem_singleton] at hy3
                    subst hy3
                    exact List.mem_append_left _
                      (List.mem_append_right _ (List.mem_cons_self _ _))
                · exact List.mem_append_left _
                    (List.mem_append_right _ (List.mem_cons_of_mem _ hy2))
              · simp only [List.mem_singleton] at hy1
                subst hy1
                exact List.mem_append_right _ (List.mem_cons_self _ _))
          apply hscanmem
          have : (((pre ++ [t]) ++ mid) ++ [u]).foldl recoverStep (⟨[], [], false⟩ : RecoverState)
              = recoverStep (mid.foldl recoverStep (recoverStep (recoverScan pre) t)) u := by
            simp [recoverScan, List.foldl_append]
          rw [this]
          exact hx1
        · apply hcf
          exact List.mem_append_right _ (List.mem_cons_of_mem _ (hemem x hx1))
      rw [hparts3'] at hcf' ⊢
      rw [split_join_commafree _ (by simp) hcf']

/-- Witness for C2 on a concrete bracketed token stream. -/
theorem claim_C2_witness :
    (recoverScan (([] : List String) ++ "pkg[a" :: ["b"] ++ ["c]"])).package_names
      = (recoverScan (([] : List String) ++ ["pkg[a"])).package_names
    ∧ ∃ r ∈ _recover_package_name (([] : List String) ++ "pkg[a" :: ["b"] ++ "c]" :: []),
        ∃ l e, pySplitCh ',' r = l ++ ("pkg[a" :: ["b"] ++ ["c]"]) ++ e :=
  claim_C2 [] ["b"] [] "pkg[a" "c]" (by decide) (by decide) (by decide)
    (by decide) (by decide)


/-! ## Claims about `main` -/

/-- C9: a valid umask override is always restored: after any run the process
umask equals its initial value. -/
theorem claim_C9 (p : Params) (w : World) (s : String) (v : Int)
    (hu : p.umask = some s) (hv : pyIntOctal s = some v) :
    (mainModel p w).umask = w.initial_umask := by
  simp only [mainModel]
  split
  · rfl
  · rw [hu]
    have hs : s ≠ "" := by
      intro h
      subst h
      cases (by decide : pyIntOctal "" = none).symm.trans hv
    simp only [if_neg hs, hv]

/-- Witness for C9: a concrete run with umask `"0022"` ends with the initial
umask. -/
theorem claim_C9_witness :
    pUmask.umask = some "0022" ∧ pyIntOctal "0022" = some 18
    ∧ (mainModel pUmask wUv).umask = wUv.initial_umask :=
  ⟨rfl, by decide, claim_C9 pUmask wUv "0022" 18 rfl (by decide)⟩

/-- Counterexample to C3 as stated: with `state=latest`, a single
unconstrained requirement and a `version` override, the module fails
fatally instead of splicing `==1.0` into the requirement (no command is
ever built). -/
theorem claim_C3_counterexample :
    _recover_package_name ["six"] = ["six"]
    ∧ has_version_specifier "six" = false
    ∧ (mainModel pLatestVersion wInert).outcome
        = .failed "version is incompatible with state=latest"
    ∧ (mainModel pLatestVersion wInert).cmd_built = none
    ∧ (mainModel pLatestVersion wInert).trace = [] := by
  refine ⟨by decide, by decide, ?_, ?_, ?_⟩ <;> decide

/-- Counterexample to C4 as stated: `state=absent` under a freshly created
virtualenv, main command exits 1 with `not installed` in stderr — the module
exits successfully but with `changed=true` (the venv-creation override),
not `changed=false`. -/
theorem claim_C4_counterexample :
    (wAbsentVenv.runs 1).rc = 1
    ∧ inStr "not installed" (wAbsentVenv.runs 1).err = true
    ∧ inStr "Successfully uninstalled" (wAbsentVenv.runs 1).out = false
    ∧ (mainModel pAbsentVenv wAbsentVenv).outcome
        = .exited true (some ["/usr/bin/uv", "pip", "uninstall", "--python", "/v/bin/python", "six"]) := by
  refine ⟨by decide, by decide, by decide, ?_⟩
  decide

/-- Counterexample to C5 as stated: a present-state run with no snapshot
taken and no `Successfully installed` marker in stdout still reports
`changed=true`, because the virtualenv was created during the run. -/
theorem claim_C5_counterexample :
    (mainModel pPresentVenv wPresentVenv).out_freeze_before = none
    ∧ inStr "Successfully installed" (wPresentVenv.runs 1).out = false
    ∧ (mainModel pPresentVenv wPresentVenv).outcome
        = .exited true (some ["/usr/bin/uv", "pip", "install", "--python", "/v/bin/python", "six"]) := by
  refine ⟨?_, by decide, ?_⟩ <;> decide

/-- Counterexample to C6 as stated: in check mode with an empty `name` list
and no requirements file ("no names are given"), the module exits with
`changed=false`, not `changed=true`. -/
theorem claim_C6_counterexample :
    pCheckEmptyName.check_mode = true
    ∧ (mainModel pCheckEmptyName wUv).outcome = .exited false none
    ∧ (mainModel pCheckEmptyName wUv).trace = [] := by
  refine ⟨by decide, ?_, ?_⟩ <;> decide

/-- Counterexample to C7 as stated: with the default (off)
`virtualenv_site_packages`, the `--help` capability probe runs before the
venv-style/`virtualenv_python` failure is reported, so the failure is not
reported before any subprocess runs. -/
theorem claim_C7_counterexample :
    _is_venv_command "python3 -m venv" = true
    ∧ optTruthy pVenvStyle.virtualenv_python = true
    ∧ (mainModel pVenvStyle wVenvStyle).outcome = .failed venvPythonMsg
    ∧ (mainModel pVenvStyle wVenvStyle).trace = [["/usr/bin/python3", "--help"]] := by
  refine ⟨by decide, by decide, ?_, ?_⟩ <;> decide

/-- Counterexample to C8 as stated: a virtualenv is created during the run
(the activation marker was absent), yet the module exits with
`changed=false`, through the no-op exit taken when the `name` list is empty
and no requirements file is given. -/
theorem claim_C8_counterexample :
    (mainModel pVenvEmptyName wVenvQuiet).venv_created = true
    ∧ (mainModel pVenvEmptyName wVenvQuiet).outcome = .exited false none := by
  constructor <;> decide

theorem _get_packages_m_done (w : World) (pip : List String) (c : Ctx) (t : Term) (c' : Ctx)
    (h : _get_packages_m w pip c = .done t c') :
    c' = { c with trace := c.trace ++ [pip ++ ["list", "--format=freeze"]] }
    ∧ ∃ m, t = .failed m := by
  simp only [_get_packages_m, runCmd] at h
  split at h
  · cases h; exact ⟨rfl, _, rfl⟩
  · cases h

theorem _get_packages_m_next (w : World) (pip : List String) (c : Ctx)
    (x : String × String × String) (c' : Ctx)
    (h : _get_packages_m w pip c = .next x c') :
    c' = { c with trace := c.trace ++ [pip ++ ["list", "--format=freeze"]] } := by
  simp only [_get_packages_m, runCmd] at h
  split at h
  · cases h
  · cases h; rfl

theorem _get_pip_m_done (w : World) (e : Option String) (c : Ctx) (t : Term) (c' : Ctx)
    (h : _get_pip_m w e c = .done t c') :
    c' = c ∧ (t = .crashed ∨ ∃ m, t = .failed m) := by
  cases e with
  | none =>
    simp only [_get_pip_m] at h
    cases hb : w.bin_path "uv" with
    | some pth => simp only [hb] at h; cases h
    | none => simp only [hb] at h; cases h; exact ⟨rfl, Or.inr ⟨_, rfl⟩⟩
  | some s =>
    simp only [_get_pip_m] at h
    cases hs : pyShlexSplit s with
    | nil => simp only [hs] at h; cases h; exact ⟨rfl, Or.inl rfl⟩
    | cons a rest =>
      simp only [hs] at h
      split at h
      · cases h
      · cases hb : w.bin_path a with
        | some pth => simp only [hb] at h; cases h
        | none => simp only [hb] at h; cases h; exact ⟨rfl, Or.inr ⟨_, rfl⟩⟩

theorem _get_pip_m_next (w : World) (e : Option String) (c : Ctx) (a : List String) (c' : Ctx)
    (h : _get_pip_m w e c = .next a c') : c' = c := by
  cases e with
  | none =>
    simp only [_get_pip_m] at h
    cases hb : w.bin_path "uv" with
    | some pth => simp only [hb] at h; cases h; rfl
    | none => simp only [hb] at h; cases h
  | some s =>
    simp only [_get_pip_m] at h
    cases hs : pyShlexSplit s with
    | nil => simp only [hs] at h; cases h
    | cons a0 rest =>
      simp only [hs] at h
      split at h
      · cases h; rfl
      · cases hb : w.bin_path a0 with
        | some pth => simp only [hb] at h; cases h; rfl
        | none => simp only [hb] at h; cases h

theorem _get_cmd_options_m_done (w : World) (cmd : String) (c : Ctx) (t : Term) (c' : Ctx)
    (h : _get_cmd_options_m w cmd c = .done t c') :
    c' = { c with trace := c.trace ++ [pyShlexSplit (cmd ++ " --help")] }
    ∧ ∃ m, t = .failed m := by
  simp only [_get_cmd_options_m, runCmd] at h
  split at h
  · cases h; exact ⟨rfl, _, rfl⟩
  · cases h

theorem _get_cmd_options_m_next (w : World) (cmd : String) (c : Ctx)
    (opts : List String) (c' : Ctx)
    (h : _get_cmd_options_m w cmd c = .next opts c') :
    c' = { c with trace := c.trace ++ [pyShlexSplit (cmd ++ " --help")] } := by
  simp only [_get_cmd_options_m, runCmd] at h
  split at h
  · cases h
  · cases h; rfl

theorem finishChanged_frame (p : Params) (w : World) (pip cmd : List String)
    (ofb : Option String) (r : RunResult) (c : Ctx) :
    (finishChanged p w pip cmd ofb r c).cmd_built = c.cmd_built
    ∧ (finishChanged p w pip cmd ofb r c).venv_created = c.venv_created
    ∧ (finishChanged p w pip cmd ofb r c).umask = c.umask := by
  simp only [finishChanged]
  by_cases habs : p.state = PipState.absent
  · rw [if_pos habs]
    exact ⟨rfl, rfl, rfl⟩
  · rw [if_neg habs]
    cases ofb with
    | none => exact ⟨rfl, rfl, rfl⟩
    | some b =>
      cases hgp : _get_packages_m w pip c with
      | done t c' =>
        obtain ⟨hc', -⟩ := _get_packages_m_done w pip c t c' hgp
        subst hc'
        exact ⟨rfl, rfl, rfl⟩
      | next x c' =>
        obtain ⟨x1, x2, x3⟩ := x
        have hc' := _get_packages_m_next w pip c _ c' hgp
        subst hc'
        exact ⟨rfl, rfl, rfl⟩

theorem mainRunPhase_frame (p : Params) (w : World) (pip cmd : List String)
    (hv : Bool) (out err : String) (c : Ctx) :
    (mainRunPhase p w pip cmd hv out err c).cmd_built = c.cmd_built
    ∧ (mainRunPhase p w pip cmd hv out err c).venv_created = c.venv_created
    ∧ (mainRunPhase p w pip cmd hv out err c).umask = c.umask := by
  simp only [mainRunPhase]
  split
  · split
    · exact ⟨rfl, rfl, rfl⟩
    · simp only [runCmd]
      split
      · exact ⟨rfl, rfl, rfl⟩
      · exact ⟨rfl, rfl, rfl⟩
  · by_cases hb : (reqTruthy p || hv) = true
    · rw [if_pos hb]
      cases hgp : _get_packages_m w pip c with
      | done t c' =>
        obtain ⟨hc', -⟩ := _get_packages_m_done w pip c t c' hgp
        subst hc'
        exact ⟨rfl, rfl, rfl⟩
      | next x c' =>
        obtain ⟨x1, x2, x3⟩ := x
        have hc' := _get_packages_m_next w pip c _ c' hgp
        subst hc'
        simp only [runCmd]
        split
        · exact ⟨(finishChanged_frame p w pip cmd _ _ _).1,
            (finishChanged_frame p w pip cmd _ _ _).2.1,
            (finishChanged_frame p w pip cmd _ _ _).2.2⟩
        · split
          · exact ⟨rfl, rfl, rfl⟩
          · exact ⟨(finishChanged_frame p w pip cmd _ _ _).1,
              (finishChanged_frame p w pip cmd _ _ _).2.1,
              (finishChanged_frame p w pip cmd _ _ _).2.2⟩
    · rw [if_neg hb]
      simp only [runCmd]
      split
      · exact ⟨(finishChanged_frame p w pip cmd _ _ _).1,
          (finishChanged_frame p w pip cmd _ _ _).2.1,
          (finishChanged_frame p w pip cmd _ _ _).2.2⟩
      · split
        · exact ⟨rfl, rfl, rfl⟩
        · exact ⟨(finishChanged_frame p w pip cmd _ _ _).1,
            (finishChanged_frame p w pip cmd _ _ _).2.1,
            (finishChanged_frame p w pip cmd _ _ _).2.2⟩

theorem mainRest_frame (p : Params) (w : World) (pip cmd : List String)
    (packages : List String) (hv : Bool) (out err : String) (c : Ctx) :
    (mainRest p w pip cmd packages hv out err c).venv_created = c.venv_created
    ∧ (mainRest p w pip cmd packages hv out err c).umask = c.umask := by
  simp only [mainRest]
  constructor
  all_goals repeat' split
  all_goals first
    | rfl
    | (rw [(mainRunPhase_frame _ _ _ _ _ _ _ _).2.1])
    | (rw [(mainRunPhase_frame _ _ _ _ _ _ _ _).2.2])

theorem mainRest_cmd_built_name (p : Params) (w : World) (pip cmd : List String)
    (packages : List String) (hv : Bool) (out err : String) (c : Ctx)
    (hn : nameTruthy p = true) :
    (mainRest p w pip cmd packages hv out err c).cmd_built
      = some ((cmd ++ (match finalExtraArgs p with
          | some ea => if ea ≠ "" then pyShlexSplit ea else []
          | none => [])) ++ packages) := by
  simp only [mainRest, hn, ite_true]
  exact (mainRunPhase_frame _ _ _ _ _ _ _ _).1


theorem ansibleValidate_plain (p : Params) (l : List String)
    (hname : p.name = some l) (hreq : p.requirements = none) (hexe : p.executable = none) :
    ansibleValidate p = none := by
  simp [ansibleValidate, hname, hreq, hexe]

theorem _get_pip_m_default (w : World) (u : String) (c : Ctx)
    (huv : w.bin_path "uv" = some u) :
    _get_pip_m w (some "uv pip") c = .next [u, "pip"] c := by
  simp only [_get_pip_m]
  have hsp : pyShlexSplit "uv pip" = ["uv", "pip"] := by decide
  simp only [hsp]
  rw [if_neg (by decide)]
  simp only [huv]

theorem mainModel_plain (p : Params) (w : World) (l : List String) (u : String)
    (hname : p.name = some l) (hl : l ≠ [])
    (hreq : p.requirements = none) (hvenv : p.virtualenv = none)
    (hexe : p.executable = none) (humask : p.umask = none)
    (hver : p.version = none) (huv : w.bin_path "uv" = some u) :
    mainModel p w = mainRest p w [u, "pip"]
      ([u, "pip"] ++ state_map p.state ++ ["--python", "uv pip"])
      (_recover_package_name l) (l.any fun pkg => pkg ≠ "" && _is_vcs_url pkg)
      "" "" { umask := w.initial_umask } := by
  have hle : l.isEmpty = false := by
    cases l with
    | nil => exact absurd rfl hl
    | cons a t => rfl
  simp only [mainModel, ansibleValidate_plain p l hname hreq hexe, humask, bodyModel,
    bodyTail, hver, Option.isSome_none, Bool.and_false, Bool.false_eq_true, if_false,
    envEffOf, hvenv, hexe, Option.getD, _get_pip_m_default w u _ huv, hname, hle,
    Bool.not_false, if_true, pyBinDefault]
  rfl

theorem mainModel_plain_version (p : Params) (w : World) (l : List String) (u v : String)
    (hname : p.name = some l) (hl : l ≠ [])
    (hreq : p.requirements = none) (hvenv : p.virtualenv = none)
    (hexe : p.executable = none) (humask : p.umask = none)
    (hver : p.version = some v) (hlat : p.state ≠ .latest)
    (huv : w.bin_path "uv" = some u) :
    mainModel p w =
      (if (_recover_package_name l).length > 1 then
        finish (.failed ambiguousVersionMsg) { umask := w.initial_umask }
      else
        match _recover_package_name l with
        | [] => finish .crashed { umask := w.initial_umask }
        | p0 :: prest =>
          if has_version_specifier p0 then
            finish (.failed conflictVersionMsg) { umask := w.initial_umask }
          else
            mainRest p w [u, "pip"]
              ([u, "pip"] ++ state_map p.state ++ ["--python", "uv pip"])
              ((p0 ++ "==" ++ v) :: prest)
              (l.any fun pkg => pkg ≠ "" && _is_vcs_url pkg)
              "" "" { umask := w.initial_umask }) := by
  have hle : l.isEmpty = false := by
    cases l with
    | nil => exact absurd rfl hl
    | cons a t => rfl
  have hlat2 : (p.state = PipState.latest : Bool) = false := by
    simp [hlat]
  simp only [mainModel, ansibleValidate_plain p l hname hreq hexe, humask, bodyModel,
    bodyTail, hver, hlat2, Bool.false_and, Bool.false_eq_true, if_false,
    envEffOf, hvenv, hexe, Option.getD, _get_pip_m_default w u _ huv, hname, hle,
    Bool.not_false, if_true, pyBinDefault]
  rfl

/-- C3 (amended): in a plain run (no virtualenv, no requirements file, no
explicit executable or umask) where a non-empty `name` list is supplied with
a `version` override and the state is not `latest` (`latest` with `version`
fails even earlier): more than one reconstructed requirement, or a lone
requirement already carrying a version operator, is a fatal validation
failure with no subprocess run; otherwise `==<version>` is appended to the
single requirement before the command is built. -/
theorem claim_C3_amended (p : Params) (w : World) (l : List String) (u v : String)
    (hname : p.name = some l) (hl : l ≠ [])
    (hreq : p.requirements = none) (hvenv : p.virtualenv = none)
    (hexe : p.executable = none) (humask : p.umask = none)
    (hver : p.version = some v) (hlat : p.state ≠ .latest)
    (huv : w.bin_path "uv" = some u) :
    ((_recover_package_name l).length > 1 →
      (mainModel p w).outcome = .failed ambiguousVersionMsg ∧ (mainModel p w).trace = [])
    ∧ (∀ r, _recover_package_name l = [r] → has_version_specifier r = true →
      (mainModel p w).outcome = .failed conflictVersionMsg ∧ (mainModel p w).trace = [])
    ∧ (∀ r, _recover_package_name l = [r] → has_version_specifier r = false →
      ∀ c, (mainModel p w).cmd_built = some c → (r ++ "==" ++ v) ∈ c) := by
  rw [mainModel_plain_version p w l u v hname hl hreq hvenv hexe humask hver hlat huv]
  have hnt : nameTruthy p = true := by
    cases l with
    | nil => exact absurd rfl hl
    | cons a t => simp [nameTruthy, hname]
  refine ⟨?_, ?_, ?_⟩
  · intro hlen
    rw [if_pos hlen]
    exact ⟨rfl, rfl⟩
  · intro r hrec hspec
    rw [hrec, if_neg (by simp)]
    simp only [hspec, ite_true]
    exact ⟨rfl, rfl⟩
  · intro r hrec hspec c hcmd
    rw [hrec, if_neg (by simp)] at hcmd
    simp only [hspec, Bool.false_eq_true, if_false] at hcmd
    rw [mainRest_cmd_built_name _ _ _ _ _ _ _ _ _ hnt] at hcmd
    cases hcmd
    simp

/-- Witness for C3 (amended): a concrete plain run splices `==2.5.1` into
its single requirement. -/
theorem claim_C3_witness :
    _recover_package_name ["six"] = ["six"]
    ∧ has_version_specifier "six" = false
    ∧ ∀ c, (mainModel pSpliceVersion wUv).cmd_built = some c → ("six" ++ "==" ++ "2.5.1") ∈ c :=
  ⟨by decide, by decide,
    (claim_C3_amended pSpliceVersion wUv ["six"] "/usr/bin/uv" "2.5.1" rfl (by decide)
      rfl rfl rfl rfl rfl (by decide) (by decide)).2.2 "six" (by decide) (by decide)⟩

/-- C4 (amended): in a plain `state=absent` run (no virtualenv — venv
creation would force `changed=true` — no VCS source, not check mode), a
main-command exit code of 1 with `not installed` in either stream exits
successfully with `changed` equal to the presence of the
`Successfully uninstalled` marker in stdout (in particular `changed=false`
whenever that marker is absent), and every other non-zero exit code is
fatal. -/
theorem claim_C4_amended (p : Params) (w : World) (l : List String) (u : String)
    (hstate : p.state = .absent)
    (hname : p.name = some l) (hl : l ≠ [])
    (hreq : p.requirements = none) (hvenv : p.virtualenv = none)
    (hexe : p.executable = none) (humask : p.umask = none)
    (hver : p.version = none) (hcm : p.check_mode = false)
    (huv : w.bin_path "uv" = some u)
    (hvcs : (l.any fun pkg => pkg ≠ "" && _is_vcs_url pkg) = false) :
    ((w.runs 0).rc = 1 →
      (inStr "not installed" (w.runs 0).out || inStr "not installed" (w.runs 0).err) = true →
      (mainModel p w).outcome
        = .exited (inStr "Successfully uninstalled" (w.runs 0).out)
            (some (builtCmd p u (_recover_package_name l)))
      ∧ (mainModel p w).trace = [builtCmd p u (_recover_package_name l)])
    ∧ ((w.runs 0).rc ≠ 0 →
      ((w.runs 0).rc = 1
        ∧ (inStr "not installed" (w.runs 0).out || inStr "not installed" (w.runs 0).err) = true
        → False) →
      ∃ m, (mainModel p w).outcome = .failed m ∧ (mainModel p w).trace
        = [builtCmd p u (_recover_package_name l)]) := by
  rw [mainModel_plain p w l u hname hl hreq hvenv hexe humask hver huv]
  have hnt : nameTruthy p = true := by
    cases l with
    | nil => exact absurd rfl hl
    | cons a t => simp [nameTruthy, hname]
  have hrt : reqTruthy p = false := by simp [reqTruthy, hreq, optTruthy]
  simp only [mainRest, hnt, ite_true, builtCmd]
  have step1 : ∀ (c : Ctx), c.trace = [] → c.venv_created = false →
      (w.runs 0).rc = 1 →
      (inStr "not installed" (w.runs 0).out || inStr "not installed" (w.runs 0).err) = true →
      (mainRunPhase p w [u, "pip"] (builtCmd p u (_recover_package_name l))
          (l.any fun pkg => pkg ≠ "" && _is_vcs_url pkg) "" "" c).outcome
        = .exited (inStr "Successfully uninstalled" (w.runs 0).out)
            (some (builtCmd p u (_recover_package_name l)))
      ∧ (mainRunPhase p w [u, "pip"] (builtCmd p u (_recover_package_name l))
          (l.any fun pkg => pkg ≠ "" && _is_vcs_url pkg) "" "" c).trace
        = [builtCmd p u (_recover_package_name l)] := by
    intro c hct hcv h1 hmark
    simp only [mainRunPhase, hcm, Bool.false_eq_true, if_false, hrt, hvcs,
      Bool.or_self, runCmd, hct]
    simp only [List.length_nil, h1, hstate, hmark]
    simp only [finishChanged, hstate, ite_true, hcv]
    simp [finish]
  have step2 : ∀ (c : Ctx), c.trace = [] →
      (w.runs 0).rc ≠ 0 →
      ((w.runs 0).rc = 1
        ∧ (inStr "not installed" (w.runs 0).out || inStr "not installed" (w.runs 0).err) = true
        → False) →
      ∃ m, (mainRunPhase p w [u, "pip"] (builtCmd p u (_recover_package_name l))
          (l.any fun pkg => pkg ≠ "" && _is_vcs_url pkg) "" "" c).outcome = .failed m
      ∧ (mainRunPhase p w [u, "pip"] (builtCmd p u (_recover_package_name l))
          (l.any fun pkg => pkg ≠ "" && _is_vcs_url pkg) "" "" c).trace
        = [builtCmd p u (_recover_package_name l)] := by
    intro c hct h1 h2
    simp only [mainRunPhase, hcm, Bool.false_eq_true, if_false, hrt, hvcs,
      Bool.or_self, runCmd, hct]
    have hcond : (decide ((w.runs 0).rc = 1) && decide (p.state = PipState.absent)
        && (inStr "not installed" (w.runs 0).out || inStr "not installed" (w.runs 0).err))
        = false := by
      by_cases hr1 : (w.runs 0).rc = 1
      · cases hmk : (inStr "not installed" (w.runs 0).out
            || inStr "not installed" (w.runs 0).err) with
        | true => exact absurd ⟨hr1, hmk⟩ h2
        | false => simp [hmk]
      · simp [hr1]
    simp only [List.length_nil, hcond, Bool.false_eq_true, if_false]
    simp only [if_pos h1]
    exact ⟨_, rfl, rfl⟩
  by_cases hbsp : p.break_system_packages = true <;>
    simp only [hbsp, ite_true, Bool.false_eq_true, if_false] <;>
    exact ⟨step1 _ rfl rfl, step2 _ rfl⟩

/-- Witness for C4 (amended): a concrete plain absent-run whose uninstall
exits 1 with the `not installed` marker exits successfully with
`changed=false`. -/
theorem claim_C4_witness :
    (wAbsentPlain.runs 0).rc = 1
    ∧ (inStr "not installed" (wAbsentPlain.runs 0).out
        || inStr "not installed" (wAbsentPlain.runs 0).err) = true
    ∧ inStr "Successfully uninstalled" (wAbsentPlain.runs 0).out = false
    ∧ (mainModel pAbsentPlain wAbsentPlain).outcome
        = .exited (inStr "Successfully uninstalled" (wAbsentPlain.runs 0).out)
            (some (builtCmd pAbsentPlain "/usr/bin/uv" (_recover_package_name ["six"]))) :=
  ⟨by decide, by decide, by decide,
    ((claim_C4_amended pAbsentPlain wAbsentPlain ["six"] "/usr/bin/uv" rfl rfl (by decide)
      rfl rfl rfl rfl rfl rfl (by decide) (by decide)).1 (by decide) (by decide)).1⟩

theorem mainModel_plain_req (p : Params) (w : World) (rq : String) (u : String)
    (hname : p.name = none) (hreq : p.requirements = some rq)
    (hvenv : p.virtualenv = none) (hexe : p.executable = none)
    (humask : p.umask = none) (hver : p.version = none)
    (huv : w.bin_path "uv" = some u) :
    mainModel p w = mainRest p w [u, "pip"]
      ([u, "pip"] ++ state_map p.state ++ ["--python", "uv pip"])
      [] false "" "" { umask := w.initial_umask } := by
  have hval : ansibleValidate p = none := by
    simp [ansibleValidate, hname, hreq, hexe, hvenv]
  simp only [mainModel, hval, humask, bodyModel, bodyTail,
    hver, Option.isSome_none, Bool.and_false, Bool.false_eq_true, if_false,
    envEffOf, hvenv, hexe, Option.getD, _get_pip_m_default w u _ huv, hname,
    pyBinDefault]
  rfl

/-- C5 (amended): for plain non-absent runs (no virtualenv — venv creation
forces `changed=true` — no version override, not check mode): with names and
no VCS source no snapshot is taken and `changed` is exactly the presence of
`Successfully installed` in the main command's stdout; with a VCS name or a
requirements file a before snapshot is taken and `changed` is exactly the
inequality of the before and after `pip list --format=freeze` outputs. -/
theorem claim_C5_amended (p : Params) (w : World) (u : String)
    (hstate : p.state ≠ .absent) (hver : p.version = none)
    (hvenv : p.virtualenv = none) (hexe : p.executable = none)
    (humask : p.umask = none) (hcm : p.check_mode = false)
    (huv : w.bin_path "uv" = some u) :
    (∀ l, p.name = some l → l ≠ [] → p.requirements = none →
      (((l.any fun pkg => pkg ≠ "" && _is_vcs_url pkg) = false →
        (w.runs 0).rc = 0 →
        (mainModel p w).out_freeze_before = none
        ∧ (mainModel p w).outcome
            = .exited (inStr "Successfully installed" (w.runs 0).out)
                (some (builtCmd p u (_recover_package_name l)))
        ∧ (mainModel p w).trace = [builtCmd p u (_recover_package_name l)])
      ∧ ((l.any fun pkg => pkg ≠ "" && _is_vcs_url pkg) = true →
        (w.runs 0).rc = 0 → (w.runs 1).rc = 0 → (w.runs 2).rc = 0 →
        (mainModel p w).out_freeze_before = some (w.runs 0).out
        ∧ (mainModel p w).outcome
            = .exited ((w.runs 0).out != (w.runs 2).out)
                (some (builtCmd p u (_recover_package_name l)))
        ∧ (mainModel p w).trace
            = [[u, "pip", "list", "--format=freeze"],
               builtCmd p u (_recover_package_name l),
               [u, "pip", "list", "--format=freeze"]])))
    ∧ (∀ rq, p.name = none → p.requirements = some rq → rq ≠ "" →
      (w.runs 0).rc = 0 → (w.runs 1).rc = 0 → (w.runs 2).rc = 0 →
      (mainModel p w).out_freeze_before = some (w.runs 0).out
      ∧ (mainModel p w).outcome
          = .exited ((w.runs 0).out != (w.runs 2).out) (some (builtCmdReq p u rq))
      ∧ (mainModel p w).trace
          = [[u, "pip", "list", "--format=freeze"], builtCmdReq p u rq,
             [u, "pip", "list", "--format=freeze"]]) := by
  have habs : (decide (p.state = PipState.absent)) = false := by
    simp [hstate]
  constructor
  · intro l hname hl hreq
    rw [mainModel_plain p w l u hname hl hreq hvenv hexe humask hver huv]
    have hnt : nameTruthy p = true := by
      cases l with
      | nil => exact absurd rfl hl
      | cons a t => simp [nameTruthy, hname]
    have hrt : reqTruthy p = false := by simp [reqTruthy, hreq, optTruthy]
    have stepa : ∀ (c : Ctx), c.trace = [] → c.venv_created = false →
        c.out_freeze_before = none →
        (l.any fun pkg => pkg ≠ "" && _is_vcs_url pkg) = false →
        (w.runs 0).rc = 0 →
        (mainRunPhase p w [u, "pip"] (builtCmd p u (_recover_package_name l))
            (l.any fun pkg => pkg ≠ "" && _is_vcs_url pkg) "" "" c).out_freeze_before = none
        ∧ (mainRunPhase p w [u, "pip"] (builtCmd p u (_recover_package_name l))
            (l.any fun pkg => pkg ≠ "" && _is_vcs_url pkg) "" "" c).outcome
          = .exited (inStr "Successfully installed" (w.runs 0).out)
              (some (builtCmd p u (_recover_package_name l)))
        ∧ (mainRunPhase p w [u, "pip"] (builtCmd p u (_recover_package_name l))
            (l.any fun pkg => pkg ≠ "" && _is_vcs_url pkg) "" "" c).trace
          = [builtCmd p u (_recover_package_name l)] := by
      intro c hct hcv hofb hvcs hr0
      simp only [mainRunPhase, hcm, Bool.false_eq_true, if_false, hrt, hvcs,
        Bool.or_self, runCmd, hct]
      simp only [List.length_nil, habs, Bool.and_false, Bool.false_and,
        Bool.false_eq_true, if_false, hr0]
      simp only [finishChanged]
      rw [if_neg hstate]
      simp only [hofb]
      simp [finish, hcv, hr0]
    have stepb : ∀ (c : Ctx), c.trace = [] → c.venv_created = false →
        (l.any fun pkg => pkg ≠ "" && _is_vcs_url pkg) = true →
        (w.runs 0).rc = 0 → (w.runs 1).rc = 0 → (w.runs 2).rc = 0 →
        (mainRunPhase p w [u, "pip"] (builtCmd p u (_recover_package_name l))
            (l.any fun pkg => pkg ≠ "" && _is_vcs_url pkg) "" "" c).out_freeze_before
          = some (w.runs 0).out
        ∧ (mainRunPhase p w [u, "pip"] (builtCmd p u (_recover_package_name l))
            (l.any fun pkg => pkg ≠ "" && _is_vcs_url pkg) "" "" c).outcome
          = .exited ((w.runs 0).out != (w.runs 2).out)
              (some (builtCmd p u (_recover_package_name l)))
        ∧ (mainRunPhase p w [u, "pip"] (builtCmd p u (_recover_package_name l))
            (l.any fun pkg => pkg ≠ "" && _is_vcs_url pkg) "" "" c).trace
          = [[u, "pip", "list", "--format=freeze"],
             builtCmd p u (_recover_package_name l),
             [u, "pip", "list", "--format=freeze"]] := by
      intro c hct hcv hvcs hr0 hr1 hr2
      simp only [mainRunPhase, hcm, Bool.false_eq_true, if_false, hrt, hvcs,
        Bool.or_true, _get_packages_m, runCmd, hct, ite_true]
      simp only [List.length_nil, hr0, ne_eq, not_true_eq_false, Bool.false_eq_true,
        if_false, not_false_eq_true, ite_true]
      simp only [List.length_cons, List.length_nil, List.length_append]
      simp only [hr1, habs, Bool.and_false, Bool.false_and, Bool.false_eq_true, if_false]
      simp only [finishChanged]
      rw [if_neg hstate]
      simp only [_get_packages_m, runCmd]
      simp only [List.length_append, List.length_cons, List.length_nil, hr2]
      simp [finish, hcv]
    constructor
    · intro hvcs hr0
      by_cases hbsp : p.break_system_packages = true <;>
        simp only [mainRest, hnt, ite_true, hbsp, Bool.false_eq_true, if_false] <;>
        exact stepa _ rfl rfl rfl hvcs hr0
    · intro hvcs hr0 hr1 hr2
      by_cases hbsp : p.break_system_packages = true <;>
        simp only [mainRest, hnt, ite_true, hbsp, Bool.false_eq_true, if_false] <;>
        exact stepb _ rfl rfl hvcs hr0 hr1 hr2
  · intro rq hname hreq hrq hr0 hr1 hr2
    rw [mainModel_plain_req p w rq u hname hreq hvenv hexe humask hver huv]
    have hnt : nameTruthy p = false := by simp [nameTruthy, hname]
    have hrt : reqTruthy p = true := by simp [reqTruthy, hreq, optTruthy, hrq]
    have stepr : ∀ (c : Ctx), c.trace = [] → c.venv_created = false →
        (mainRunPhase p w [u, "pip"] (builtCmdReq p u rq) false "" "" c).out_freeze_before
          = some (w.runs 0).out
        ∧ (mainRunPhase p w [u, "pip"] (builtCmdReq p u rq) false "" "" c).outcome
          = .exited ((w.runs 0).out != (w.runs 2).out) (some (builtCmdReq p u rq))
        ∧ (mainRunPhase p w [u, "pip"] (builtCmdReq p u rq) false "" "" c).trace
          = [[u, "pip", "list", "--format=freeze"], builtCmdReq p u rq,
             [u, "pip", "list", "--format=freeze"]] := by
      intro c hct hcv
      simp only [mainRunPhase, hcm, Bool.false_eq_true, if_false, hrt,
        Bool.true_or, _get_packages_m, runCmd, hct, ite_true]
      simp only [List.length_nil, hr0, ne_eq, not_true_eq_false, Bool.false_eq_true,
        if_false, not_false_eq_true, ite_true]
      simp only [List.length_cons, List.length_nil, List.length_append]
      simp only [hr1, habs, Bool.and_false, Bool.false_and, Bool.false_eq_true, if_false]
      simp only [finishChanged]
      rw [if_neg hstate]
      simp only [_get_packages_m, runCmd]
      simp only [List.length_append, List.length_cons, List.length_nil, hr2]
      simp [finish, hcv]
    by_cases hbsp : p.break_system_packages = true <;>
      simp only [mainRest, hnt, Bool.false_eq_true, if_false, hrt, ite_true,
        hreq, Option.getD, hbsp, builtCmdReq] <;>
      exact stepr _ rfl rfl

/-- Witness for C5 (amended): snapshots `six==1.15.0` / `six==1.16.0` give
`changed=true`; identical snapshots give `changed=false`. -/
theorem claim_C5_witness :
    ((wVcs.runs 0).out != (wVcs.runs 2).out) = true
    ∧ (mainModel pVcs wVcs).outcome
        = .exited true
            (some (builtCmd pVcs "/usr/bin/uv" (_recover_package_name ["git+http://myrepo/app/MyApp"])))
    ∧ ((wVcsSame.runs 0).out != (wVcsSame.runs 2).out) = false
    ∧ (mainModel pVcs wVcsSame).outcome
        = .exited false
            (some (builtCmd pVcs "/usr/bin/uv" (_recover_package_name ["git+http://myrepo/app/MyApp"]))) := by
  have h1 := ((claim_C5_amended pVcs wVcs "/usr/bin/uv" (by decide) rfl rfl rfl rfl rfl
    (by decide)).1 ["git+http://myrepo/app/MyApp"] rfl (by decide) rfl).2
    (by decide) (by decide) (by decide) (by decide)
  have h2 := ((claim_C5_amended pVcs wVcsSame "/usr/bin/uv" (by decide) rfl rfl rfl rfl rfl
    (by decide)).1 ["git+http://myrepo/app/MyApp"] rfl (by decide) rfl).2
    (by decide) (by decide) (by decide) (by decide)
  exact ⟨by decide, h1.2.1.trans (by decide), by decide, h2.2.1.trans (by decide)⟩

/-- C6 (amended): in check mode, a needed virtualenv creation exits
`changed=true` with no subprocess run; otherwise (plain runs, no version
override): extra arguments (including an editable-implied `-e`), a
requirements file, or `state=latest` exit `changed=true` with no subprocess;
failing those, the built command is run once with `--dry-run` appended and
`changed` is exactly whether a line of that invocation's stderr starts with
`Would install` or `Would uninstall`; with neither names nor a requirements
file the module exits `changed=false` beforehand. -/
theorem claim_C6_amended (p : Params) (w : World) (u : String)
    (hcm : p.check_mode = true) (hver : p.version = none)
    (hexe : p.executable = none) (humask : p.umask = none)
    (huv : w.bin_path "uv" = some u) :
    (∀ ev l, p.virtualenv = some ev → p.name = some l → p.requirements = none →
      optTruthy (envEffOf p) = true →
      w.path_exists (pyJoin (pyJoin ((envEffOf p).getD "") "bin") "activate") = false →
      (mainModel p w).outcome = .exited true none ∧ (mainModel p w).trace = [])
    ∧ (∀ l, p.virtualenv = none → p.name = some l → l ≠ [] → p.requirements = none →
      (optTruthy (finalExtraArgs p) = true ∨ p.state = .latest →
        (mainModel p w).outcome = .exited true none ∧ (mainModel p w).trace = []))
    ∧ (∀ rq, p.virtualenv = none → p.name = none → p.requirements = some rq → rq ≠ "" →
      (mainModel p w).outcome = .exited true none ∧ (mainModel p w).trace = [])
    ∧ (∀ l, p.virtualenv = none → p.name = some l → l ≠ [] → p.requirements = none →
      optTruthy (finalExtraArgs p) = false → p.state ≠ .latest →
      (mainModel p w).trace = [builtCmd p u (_recover_package_name l) ++ ["--dry-run"]]
      ∧ ((w.runs 0).rc = 0 →
        (mainModel p w).outcome
          = .exited (wouldChangeLine (w.runs 0).err)
              (some (builtCmd p u (_recover_package_name l) ++ ["--dry-run"])))
      ∧ ((w.runs 0).rc ≠ 0 → ∃ m, (mainModel p w).outcome = .failed m)) := by
  refine ⟨?_, ?_, ?_, ?_⟩
  · intro ev l hv hname hreq htr hex
    have hval : ansibleValidate p = none := by
      simp [ansibleValidate, hname, hreq, hexe]
    simp only [mainModel, hval, humask, bodyModel, hver, Option.isSome_none,
      Bool.and_false, Bool.false_eq_true, if_false]
    cases hee : envEffOf p with
    | none => rw [hee] at htr; simp [optTruthy] at htr
    | some e =>
      rw [hee] at htr hex
      have he : e ≠ "" := by simpa [optTruthy] using htr
      simp only [Option.getD] at hex
      simp only [hee]
      rw [if_pos he]
      simp only [hex, Bool.not_false, ite_true, setup_virtualenv_m, hcm]
      exact ⟨rfl, rfl⟩
  · intro l hvenv hname hl hreq hcond
    rw [mainModel_plain p w l u hname hl hreq hvenv hexe humask hver huv]
    have hnt : nameTruthy p = true := by
      cases l with
      | nil => exact absurd rfl hl
      | cons a t => simp [nameTruthy, hname]
    have hrt : reqTruthy p = false := by simp [reqTruthy, hreq, optTruthy]
    have hcondT : (optTruthy (finalExtraArgs p) || reqTruthy p
        || decide (p.state = PipState.latest) || !nameTruthy p) = true := by
      rcases hcond with hx | hx <;> simp [hx]
    have step : ∀ (c : Ctx), c.trace = [] →
        (mainRunPhase p w [u, "pip"] (builtCmd p u (_recover_package_name l))
            (l.any fun pkg => pkg ≠ "" && _is_vcs_url pkg) "" "" c).outcome
          = .exited true none
        ∧ (mainRunPhase p w [u, "pip"] (builtCmd p u (_recover_package_name l))
            (l.any fun pkg => pkg ≠ "" && _is_vcs_url pkg) "" "" c).trace = [] := by
      intro c hct
      simp only [mainRunPhase, hcm, ite_true, hcondT]
      exact ⟨rfl, hct⟩
    by_cases hbsp : p.break_system_packages = true <;>
      simp only [mainRest, hnt, ite_true, hbsp, Bool.false_eq_true, if_false] <;>
      exact step _ rfl
  · intro rq hvenv hname hreq hrq
    rw [mainModel_plain_req p w rq u hname hreq hvenv hexe humask hver huv]
    have hnt : nameTruthy p = false := by simp [nameTruthy, hname]
    have hrt : reqTruthy p = true := by simp [reqTruthy, hreq, optTruthy, hrq]
    have hcondT : (optTruthy (finalExtraArgs p) || reqTruthy p
        || decide (p.state = PipState.latest) || !nameTruthy p) = true := by
      simp [hrt]
    have step : ∀ (c : Ctx), c.trace = [] →
        (mainRunPhase p w [u, "pip"] (builtCmdReq p u rq) false "" "" c).outcome
          = .exited true none
        ∧ (mainRunPhase p w [u, "pip"] (builtCmdReq p u rq) false "" "" c).trace = [] := by
      intro c hct
      simp only [mainRunPhase, hcm, ite_true, hcondT]
      exact ⟨rfl, hct⟩
    by_cases hbsp : p.break_system_packages = true <;>
      simp only [mainRest, hnt, Bool.false_eq_true, if_false, hrt, ite_true,
        hreq, Option.getD, hbsp, builtCmdReq] <;>
      exact step _ rfl
  · intro l hvenv hname hl hreq hextra hlat
    rw [mainModel_plain p w l u hname hl hreq hvenv hexe humask hver huv]
    have hnt : nameTruthy p = true := by
      cases l with
      | nil => exact absurd rfl hl
      | cons a t => simp [nameTruthy, hname]
    have hrt : reqTruthy p = false := by simp [reqTruthy, hreq, optTruthy]
    have hcondF : (optTruthy (finalExtraArgs p) || reqTruthy p
        || decide (p.state = PipState.latest) || !nameTruthy p) = false := by
      simp [hextra, hrt, hnt, hlat]
    have step : ∀ (c : Ctx), c.trace = [] →
        (mainRunPhase p w [u, "pip"] (builtCmd p u (_recover_package_name l))
            (l.any fun pkg => pkg ≠ "" && _is_vcs_url pkg) "" "" c).trace
          = [builtCmd p u (_recover_package_name l) ++ ["--dry-run"]]
        ∧ ((w.runs 0).rc = 0 →
          (mainRunPhase p w [u, "pip"] (builtCmd p u (_recover_package_name l))
              (l.any fun pkg => pkg ≠ "" && _is_vcs_url pkg) "" "" c).outcome
            = .exited (wouldChangeLine (w.runs 0).err)
                (some (builtCmd p u (_recover_package_name l) ++ ["--dry-run"])))
        ∧ ((w.runs 0).rc ≠ 0 → ∃ m,
          (mainRunPhase p w [u, "pip"] (builtCmd p u (_recover_package_name l))
              (l.any fun pkg => pkg ≠ "" && _is_vcs_url pkg) "" "" c).outcome
            = .failed m) := by
      intro c hct
      simp only [mainRunPhase, hcm, ite_true, hcondF, Bool.false_eq_true, if_false,
        runCmd, hct, List.length_nil]
      refine ⟨?_, ?_, ?_⟩
      · split <;> rfl
      · intro hr0
        rw [if_neg (by simp [hr0])]
        rfl
      · intro hr0
        rw [if_pos hr0]
        exact ⟨_, rfl⟩
    by_cases hbsp : p.break_system_packages = true <;>
      simp only [mainRest, hnt, ite_true, hbsp, Bool.false_eq_true, if_false] <;>
      exact step _ rfl

/-- Witness for C6 (amended): a concrete check-mode run issues the dry-run
probe and reports `changed=true` from the `Would install` line. -/
theorem claim_C6_witness :
    wouldChangeLine (wCheckPlain.runs 0).err = true
    ∧ (mainModel pCheckPlain wCheckPlain).outcome
        = .exited true
            (some (builtCmd pCheckPlain "/usr/bin/uv" (_recover_package_name ["six"])
              ++ ["--dry-run"])) := by
  have h := (claim_C6_amended pCheckPlain wCheckPlain "/usr/bin/uv" rfl rfl rfl rfl
    (by decide)).2.2.2 ["six"] rfl rfl (by decide) rfl (by decide) (by decide)
  exact ⟨by decide, (h.2.1 (by decide)).trans (by decide)⟩

theorem setup_resolve_done (w : World) (c0 : String) (c : Ctx) (t : Term) (c' : Ctx)
    (h : setup_resolve w c0 c = .done t c') : c' = c ∧ ∃ m, t = .failed m := by
  simp only [setup_resolve] at h
  split at h
  · cases hb : w.bin_path c0 with
    | some pth => simp only [hb] at h; cases h
    | none => simp only [hb] at h; cases h; exact ⟨rfl, _, rfl⟩
  · cases h

theorem setup_resolve_next (w : World) (c0 : String) (c : Ctx) (exe : String) (c' : Ctx)
    (h : setup_resolve w c0 c = .next exe c') : c' = c := by
  simp only [setup_resolve] at h
  split at h
  · cases hb : w.bin_path c0 with
    | some pth => simp only [hb] at h; cases h; rfl
    | none => simp only [hb] at h; cases h
  · cases h; rfl

theorem setup_site_done (p : Params) (w : World) (exe : String) (rest : List String)
    (c : Ctx) (t : Term) (c' : Ctx)
    (h : setup_site p w exe rest c = .done t c') :
    (∃ m, t = .failed m)
    ∧ c' = { c with trace := c.trace ++ [pyShlexSplit (exe ++ " --help")] } := by
  simp only [setup_site] at h
  split at h
  · cases h
  · cases hgco : _get_cmd_options_m w exe c with
    | done t2 c2 =>
      simp only [hgco] at h
      obtain ⟨hc2, hm⟩ := _get_cmd_options_m_done w exe c t2 c2 hgco
      cases h
      exact ⟨hm, hc2⟩
    | next opts c2 =>
      simp only [hgco] at h
      split at h <;> cases h

theorem setup_site_next (p : Params) (w : World) (exe : String) (rest : List String)
    (c : Ctx) (cmd1 : List String) (c' : Ctx)
    (h : setup_site p w exe rest c = .next cmd1 c') :
    c' = c ∨ c' = { c with trace := c.trace ++ [pyShlexSplit (exe ++ " --help")] } := by
  simp only [setup_site] at h
  split at h
  · cases h; exact Or.inl rfl
  · cases hgco : _get_cmd_options_m w exe c with
    | done t2 c2 => simp only [hgco] at h; cases h
    | next opts c2 =>
      simp only [hgco] at h
      have hc2 := _get_cmd_options_m_next w exe c opts c2 hgco
      split at h <;> (cases h; exact Or.inr hc2)

theorem setup_py_venvstyle (p : Params) (w : World) (vcmd : String)
    (cmd2 : List String) (c : Ctx)
    (hvstyle : _is_venv_command vcmd = true)
    (hvp : optTruthy p.virtualenv_python = true) :
    setup_py p w vcmd cmd2 c = .done (.failed venvPythonMsg) c := by
  simp only [setup_py, hvstyle, Bool.not_true, Bool.false_eq_true, if_false, hvp, ite_true]

/-- Under a venv-style provisioning command with a truthy
`virtualenv_python`, `setup_virtualenv` outside check mode always fails
fatally, after at most the `--help` capability probe. -/
theorem setup_venvstyle_fatal (p : Params) (w : World) (env out err : String) (c : Ctx)
    (hcm : p.check_mode = false)
    (hsplit : pyShlexSplit (p.virtualenv_command.getD "uv venv") ≠ [])
    (hvstyle : _is_venv_command (p.virtualenv_command.getD "uv venv") = true)
    (hvp : optTruthy p.virtualenv_python = true) :
    ∃ m c', setup_virtualenv_m p w env out err c = .done (.failed m) c'
      ∧ (c'.trace = c.trace
         ∨ ∃ s, c'.trace = c.trace ++ [pyShlexSplit (s ++ " --help")]) := by
  obtain ⟨c0, rest, hs⟩ : ∃ c0 rest,
      pyShlexSplit (p.virtualenv_command.getD "uv venv") = c0 :: rest := by
    cases hsp : pyShlexSplit (p.virtualenv_command.getD "uv venv") with
    | nil => exact absurd hsp hsplit
    | cons a b => exact ⟨a, b, rfl⟩
  simp only [setup_virtualenv_m, hcm, Bool.false_eq_true, if_false, hs]
  cases hres : setup_resolve w c0 c with
  | done t c1 =>
    simp only [hres]
    obtain ⟨hc1, m, hm⟩ := setup_resolve_done w c0 c t c1 hres
    subst hm
    refine ⟨m, c1, rfl, Or.inl ?_⟩
    rw [hc1]
  | next exe c1 =>
    simp only [hres]
    have hc1 := setup_resolve_next w c0 c exe c1 hres
    cases hsite : setup_site p w exe rest c1 with
    | done t2 c2 =>
      simp only [hsite]
      obtain ⟨⟨m, hm⟩, hc2⟩ := setup_site_done p w exe rest c1 t2 c2 hsite
      subst hm
      refine ⟨m, c2, rfl, Or.inr ⟨exe, ?_⟩⟩
      rw [hc2, hc1]
    | next cmd1 c2 =>
      simp only [hsite]
      simp only [setup_py_venvstyle p w _ _ _ hvstyle hvp]
      rcases setup_site_next p w exe rest c1 cmd1 c2 hsite with hc2 | hc2
      · refine ⟨venvPythonMsg, c2, rfl, Or.inl ?_⟩
        rw [hc2, hc1]
      · refine ⟨venvPythonMsg, c2, rfl, Or.inr ⟨exe, ?_⟩⟩
        rw [hc2, hc1]

/-- C7 (amended): outside check mode, when provisioning runs (the
environment path is truthy and its activation marker absent), the
provisioning command is venv-style and `virtualenv_python` is truthy, the
run is fatal, and at most one subprocess — the `--help` capability probe,
issued only when site-packages inheritance is off — precedes the failure;
the environment-creation command itself is never run. -/
theorem claim_C7_amended (p : Params) (w : World)
    (hcm : p.check_mode = false)
    (htr : optTruthy (envEffOf p) = true)
    (hex : w.path_exists (pyJoin (pyJoin ((envEffOf p).getD "") "bin") "activate") = false)
    (hsplit : pyShlexSplit (p.virtualenv_command.getD "uv venv") ≠ [])
    (hvstyle : _is_venv_command (p.virtualenv_command.getD "uv venv") = true)
    (hvp : optTruthy p.virtualenv_python = true) :
    ((∃ m, (mainModel p w).outcome = .failed m) ∨ (mainModel p w).outcome = .crashed)
    ∧ (mainModel p w).trace.length ≤ 1
    ∧ ∀ cmd ∈ (mainModel p w).trace, ∃ s, cmd = pyShlexSplit (s ++ " --help") := by
  have hbody : ∀ (cc : Ctx), cc.trace = [] →
      ((∃ m, (bodyModel p w cc).outcome = .failed m) ∨ (bodyModel p w cc).outcome = .crashed)
      ∧ (bodyModel p w cc).trace.length ≤ 1
      ∧ ∀ cmd ∈ (bodyModel p w cc).trace, ∃ s, cmd = pyShlexSplit (s ++ " --help") := by
    intro cc hct
    simp only [bodyModel]
    split
    · exact ⟨Or.inl ⟨_, rfl⟩, by simp [finish, hct], by simp [finish, hct]⟩
    · cases hee : envEffOf p with
      | none => rw [hee] at htr; simp [optTruthy] at htr
      | some e =>
        have he : e ≠ "" := by rw [hee] at htr; simpa [optTruthy] using htr
        rw [hee] at hex
        simp only [Option.getD] at hex
        simp only [hee]
        rw [if_pos he]
        simp only [hex, Bool.not_false, ite_true]
        obtain ⟨m, c', hsetup, htrace⟩ := setup_venvstyle_fatal p w e "" ""
          { cc with venv_created := true } hcm hsplit hvstyle hvp
        simp only [hsetup]
        refine ⟨Or.inl ⟨m, rfl⟩, ?_, ?_⟩
        · rcases htrace with ht | ⟨s, ht⟩ <;> simp [finish, ht, hct]
        · rcases htrace with ht | ⟨s, ht⟩
          · simp [finish, ht, hct]
          · intro cmd hcmd
            simp only [finish] at hcmd
            rw [ht] at hcmd
            simp only [hct, List.nil_append, List.mem_singleton] at hcmd
            exact ⟨s, hcmd⟩
  cases hval : ansibleValidate p with
  | some m =>
    simp only [mainModel, hval]
    exact ⟨Or.inl ⟨m, rfl⟩, by simp [finish], by simp [finish]⟩
  | none =>
    cases hum : p.umask with
    | none =>
      simp only [mainModel, hval, hum]
      exact hbody _ rfl
    | some s =>
      by_cases hse : s = ""
      · simp only [mainModel, hval, hum, hse, ite_true]
        exact ⟨Or.inr rfl, by simp [finish], by simp [finish]⟩
      · cases hpo : pyIntOctal s with
        | none =>
          simp only [mainModel, hval, hum, if_neg hse, hpo]
          exact ⟨Or.inl ⟨_, rfl⟩, by simp [finish], by simp [finish]⟩
        | some v =>
          simp only [mainModel, hval, hum, if_neg hse, hpo]
          exact hbody _ rfl

theorem setup_py_done (p : Params) (w : World) (vcmd : String) (cmd2 : List String)
    (c : Ctx) (t : Term) (c' : Ctx)
    (h : setup_py p w vcmd cmd2 c = .done t c') : c' = c ∧ t = .failed venvPythonMsg := by
  simp only [setup_py] at h
  split at h
  · cases h
  · split at h
    · cases h; exact ⟨rfl, rfl⟩
    · cases h

theorem setup_py_next (p : Params) (w : World) (vcmd : String) (cmd2 : List String)
    (c : Ctx) (a : List String) (c' : Ctx)
    (h : setup_py p w vcmd cmd2 c = .next a c') : c' = c := by
  simp only [setup_py] at h
  split at h
  · cases h; rfl
  · split at h
    · cases h
    · cases h; rfl

theorem setup_next_inv (p : Params) (w : World) (env out err : String) (c : Ctx)
    (a : String × String) (c' : Ctx)
    (h : setup_virtualenv_m p w env out err c = .next a c') :
    p.check_mode = false ∧ c'.venv_created = c.venv_created := by
  simp only [setup_virtualenv_m] at h
  split at h
  · cases h
  · rename_i hcm
    refine ⟨by simpa using hcm, ?_⟩
    cases hs : pyShlexSplit (p.virtualenv_command.getD "uv venv") with
    | nil => simp only [hs] at h; cases h
    | cons c0 rest =>
      simp only [hs] at h
      cases hres : setup_resolve w c0 c with
      | done t c1 => simp only [hres] at h; cases h
      | next exe c1 =>
        simp only [hres] at h
        have hc1 := setup_resolve_next w c0 c exe c1 hres
        cases hsite : setup_site p w exe rest c1 with
        | done t2 c2 => simp only [hsite] at h; cases h
        | next cmd1 c2 =>
          simp only [hsite] at h
          have hc2 := setup_site_next p w exe rest c1 cmd1 c2 hsite
          cases hpy : setup_py p w (p.virtualenv_command.getD "uv venv")
              (cmd1 ++ ["--python-preference", "only-system"]) c2 with
          | done t3 c3 => simp only [hpy] at h; cases h
          | next cmd3 c3 =>
            simp only [hpy, runCmd] at h
            have hc3 := setup_py_next p w _ _ c2 cmd3 c3 hpy
            split at h
            · cases h
            · cases h
              subst hc3 hc1
              rcases hc2 with hc2 | hc2 <;> rw [hc2]

theorem setup_done_exited (p : Params) (w : World) (env out err : String) (c : Ctx)
    (ch : Bool) (co : Option (List String)) (c' : Ctx)
    (h : setup_virtualenv_m p w env out err c = .done (.exited ch co) c') :
    ch = true := by
  simp only [setup_virtualenv_m] at h
  split at h
  · cases h; rfl
  · cases hs : pyShlexSplit (p.virtualenv_command.getD "uv venv") with
    | nil => simp only [hs] at h; cases h
    | cons c0 rest =>
      simp only [hs] at h
      cases hres : setup_resolve w c0 c with
      | done t c1 =>
        simp only [hres] at h
        obtain ⟨-, m, hm⟩ := setup_resolve_done w c0 c t c1 hres
        subst hm
        cases h
      | next exe c1 =>
        simp only [hres] at h
        cases hsite : setup_site p w exe rest c1 with
        | done t2 c2 =>
          simp only [hsite] at h
          obtain ⟨⟨m, hm⟩, -⟩ := setup_site_done p w exe rest c1 t2 c2 hsite
          subst hm
          cases h
        | next cmd1 c2 =>
          simp only [hsite] at h
          cases hpy : setup_py p w (p.virtualenv_command.getD "uv venv")
              (cmd1 ++ ["--python-preference", "only-system"]) c2 with
          | done t3 c3 =>
            simp only [hpy] at h
            obtain ⟨-, hm⟩ := setup_py_done p w _ _ c2 t3 c3 hpy
            subst hm
            cases h
          | next cmd3 c3 =>
            simp only [hpy, runCmd] at h
            split at h
            · cases h
            · cases h

theorem finishChanged_exited (p : Params) (w : World) (pip cmd : List String)
    (ofb : Option String) (r : RunResult) (c : Ctx) (ch : Bool)
    (co : Option (List String))
    (h : (finishChanged p w pip cmd ofb r c).outcome = .exited ch co) :
    ∃ b, ch = (b || c.venv_created) := by
  simp only [finishChanged] at h
  by_cases habs : p.state = PipState.absent
  · rw [if_pos habs] at h
    cases h
    exact ⟨_, rfl⟩
  · rw [if_neg habs] at h
    cases ofb with
    | none =>
      cases h
      exact ⟨_, rfl⟩
    | some b =>
      cases hgp : _get_packages_m w pip c with
      | done t c' =>
        simp only [hgp] at h
        obtain ⟨hc', m, hm⟩ := _get_packages_m_done w pip c t c' hgp
        subst hm
        cases h
      | next x c' =>
        obtain ⟨x1, x2, x3⟩ := x
        simp only [hgp] at h
        have hc' := _get_packages_m_next w pip c _ c' hgp
        subst hc'
        cases h
        exact ⟨_, rfl⟩

theorem mainRunPhase_exited (p : Params) (w : World) (pip cmd : List String)
    (hv : Bool) (out err : String) (c : Ctx) (ch : Bool) (co : Option (List String))
    (hcm : p.check_mode = false)
    (h : (mainRunPhase p w pip cmd hv out err c).outcome = .exited ch co) :
    ∃ b, ch = (b || c.venv_created) := by
  simp only [mainRunPhase, hcm, Bool.false_eq_true, if_false] at h
  by_cases hb : (reqTruthy p || hv) = true
  · rw [if_pos hb] at h
    cases hgp : _get_packages_m w pip c with
    | done t c' =>
      simp only [hgp] at h
      obtain ⟨hc', m, hm⟩ := _get_packages_m_done w pip c t c' hgp
      subst hm
      cases h
    | next x c' =>
      obtain ⟨x1, x2, x3⟩ := x
      simp only [hgp, runCmd] at h
      have hc' := _get_packages_m_next w pip c _ c' hgp
      split at h
      · obtain ⟨b, hbch⟩ := finishChanged_exited p w pip cmd _ _ _ ch co h
        refine ⟨b, ?_⟩
        rw [hbch, hc']
      · split at h
        · cases h
        · obtain ⟨b, hbch⟩ := finishChanged_exited p w pip cmd _ _ _ ch co h
          refine ⟨b, ?_⟩
          rw [hbch, hc']
  · rw [if_neg hb] at h
    simp only [runCmd] at h
    split at h
    · obtain ⟨b, hbch⟩ := finishChanged_exited p w pip cmd _ _ _ ch co h
      exact ⟨b, hbch⟩
    · split at h
      · cases h
      · obtain ⟨b, hbch⟩ := finishChanged_exited p w pip cmd _ _ _ ch co h
        exact ⟨b, hbch⟩

theorem mainRest_exited (p : Params) (w : World) (pip cmd : List String)
    (packages : List String) (hv : Bool) (out err : String) (c : Ctx)
    (ch : Bool) (co : Option (List String))
    (hcm : p.check_mode = false)
    (heff : nameTruthy p = true ∨ reqTruthy p = true)
    (h : (mainRest p w pip cmd packages hv out err c).outcome = .exited ch co) :
    ∃ b, ch = (b || c.venv_created) := by
  simp only [mainRest] at h
  by_cases hnt : nameTruthy p = true
  · rw [if_pos hnt] at h
    obtain ⟨b, hbch⟩ := mainRunPhase_exited p w pip _ hv out err _ ch co hcm h
    refine ⟨b, ?_⟩
    rw [hbch]
    by_cases hbsp : p.break_system_packages = true <;> simp [hbsp]
  · have hrt : reqTruthy p = true := heff.resolve_left hnt
    rw [if_neg (by simp [hnt]), if_pos hrt] at h
    obtain ⟨b, hbch⟩ := mainRunPhase_exited p w pip _ hv out err _ ch co hcm h
    refine ⟨b, ?_⟩
    rw [hbch]
    by_cases hbsp : p.break_system_packages = true <;> simp [hbsp]

theorem bodyTail_exited (p : Params) (w : World) (out err py_bin : String) (c : Ctx)
    (ch : Bool) (co : Option (List String))
    (hcm : p.check_mode = false)
    (heff : nameTruthy p = true ∨ reqTruthy p = true)
    (h : (bodyTail p w out err py_bin c).outcome = .exited ch co) :
    ∃ b, ch = (b || c.venv_created) := by
  simp only [bodyTail] at h
  cases hgp : _get_pip_m w (some (p.executable.getD "uv pip")) c with
  | done t c1 =>
    simp only [hgp] at h
    obtain ⟨hc1, ht⟩ := _get_pip_m_done w _ c t c1 hgp
    rcases ht with ht | ⟨m, ht⟩ <;> (subst ht; cases h)
  | next pip c1 =>
    simp only [hgp] at h
    have hc1 := _get_pip_m_next w _ c pip c1 hgp
    have htail : ∀ pk hv2 o2 e2,
        (mainRest p w pip (pip ++ state_map p.state ++ ["--python", py_bin])
          pk hv2 o2 e2 c1).outcome = .exited ch co →
        ∃ b, ch = (b || c.venv_created) := by
      intro pk hv2 o2 e2 hh
      obtain ⟨b, hb⟩ := mainRest_exited p w pip _ pk hv2 o2 e2 c1 ch co hcm heff hh
      refine ⟨b, ?_⟩
      rw [hb, hc1]
    cases hname : p.name with
    | none =>
      simp only [hname] at h
      exact htail _ _ _ _ h
    | some l =>
      simp only [hname] at h
      by_cases hle : l.isEmpty
      · rw [if_neg (by simp [hle])] at h
        exact htail _ _ _ _ h
      · rw [if_pos (by simp [hle])] at h
        cases hver : p.version with
        | none =>
          simp only [hver] at h
          exact htail _ _ _ _ h
        | some v =>
          simp only [hver] at h
          split at h
          · cases h
          · cases hrec : _recover_package_name l with
            | nil => simp only [hrec] at h; cases h
            | cons p0 prest =>
              simp only [hrec] at h
              split at h
              · cases h
              · exact htail _ _ _ _ h

theorem bodyTail_venv_frame (p : Params) (w : World) (out err py_bin : String) (c : Ctx) :
    (bodyTail p w out err py_bin c).venv_created = c.venv_created := by
  simp only [bodyTail]
  cases hgp : _get_pip_m w (some (p.executable.getD "uv pip")) c with
  | done t c1 =>
    simp only [hgp]
    obtain ⟨hc1, -⟩ := _get_pip_m_done w _ c t c1 hgp
    rw [show (finish t c1).venv_created = c1.venv_created from rfl, hc1]
  | next pip c1 =>
    simp only [hgp]
    have hc1 := _get_pip_m_next w _ c pip c1 hgp
    have htail : ∀ pk hv2 o2 e2,
        (mainRest p w pip (pip ++ state_map p.state ++ ["--python", py_bin])
          pk hv2 o2 e2 c1).venv_created = c.venv_created := by
      intro pk hv2 o2 e2
      rw [(mainRest_frame p w pip _ pk hv2 o2 e2 c1).1, hc1]
    cases hname : p.name with
    | none =>
      simp only [hname]
      exact htail _ _ _ _
    | some l =>
      simp only [hname]
      by_cases hle : l.isEmpty
      · rw [if_neg (by simp [hle])]
        exact htail _ _ _ _
      · rw [if_pos (by simp [hle])]
        cases hver : p.version with
        | none =>
          simp only [hver]
          exact htail _ _ _ _
        | some v =>
          simp only [hver]
          split
          · rw [show (finish (Term.failed ambiguousVersionMsg) c1).venv_created
              = c1.venv_created from rfl, hc1]
          · cases hrec : _recover_package_name l with
            | nil =>
              simp only [hrec]
              rw [show (finish Term.crashed c1).venv_created = c1.venv_created from rfl, hc1]
            | cons p0 prest =>
              simp only [hrec]
              split
              · rw [show (finish (Term.failed conflictVersionMsg) c1).venv_created
                  = c1.venv_created from rfl, hc1]
              · exact htail _ _ _ _

/-- C8 (amended): whenever a virtualenv was created during the run and the
run exits successfully through any path that had names or a requirements
file effectively present, the reported `changed` flag is true.  (The no-op
warning exit taken when neither is present reports `changed=false` even
after creating the virtualenv, refuting the unconditional claim.) -/
theorem claim_C8_amended (p : Params) (w : World) (ch : Bool) (co : Option (List String))
    (hout : (mainModel p w).outcome = .exited ch co)
    (hvc : (mainModel p w).venv_created = true)
    (heff : nameTruthy p = true ∨ reqTruthy p = true) :
    ch = true := by
  have hbody : ∀ cc : Ctx, cc.venv_created = false →
      (bodyModel p w cc).outcome = .exited ch co →
      (bodyModel p w cc).venv_created = true → ch = true := by
    intro cc hcv hbo hbv
    simp only [bodyModel] at hbo hbv
    by_cases hlv : (p.state = PipState.latest && p.version.isSome) = true
    · rw [if_pos hlv] at hbo
      cases hbo
    · rw [if_neg hlv] at hbo hbv
      cases hee : envEffOf p with
      | none =>
        simp only [hee] at hbo hbv
        rw [bodyTail_venv_frame] at hbv
        simp [hcv] at hbv
      | some e =>
        by_cases he : e = ""
        · subst he
          simp only [hee] at hbo hbv
          rw [if_neg (by simp)] at hbo hbv
          rw [bodyTail_venv_frame] at hbv
          simp [hcv] at hbv
        · simp only [hee] at hbo hbv
          rw [if_pos he] at hbo hbv
          by_cases hxa : w.path_exists (pyJoin (pyJoin e "bin") "activate") = true
          · simp only [hxa, Bool.not_true, Bool.false_eq_true, if_false] at hbo hbv
            rw [bodyTail_venv_frame] at hbv
            simp [hcv] at hbv
          · have hxa2 : w.path_exists (pyJoin (pyJoin e "bin") "activate") = false := by
              simpa using hxa
            simp only [hxa2, Bool.not_false, ite_true] at hbo hbv
            cases hsetup : setup_virtualenv_m p w e "" "" { cc with venv_created := true } with
            | done t c1 =>
              simp only [hsetup] at hbo hbv
              cases t with
              | exited ch2 co2 =>
                have hch2 := setup_done_exited p w e "" "" _ ch2 co2 c1 hsetup
                cases hbo
                exact hch2
              | failed m => cases hbo
              | crashed => cases hbo
            | next a c1 =>
              obtain ⟨a1, a2⟩ := a
              simp only [hsetup] at hbo hbv
              obtain ⟨hcm2, hc1⟩ := setup_next_inv p w e "" "" _ _ c1 hsetup
              obtain ⟨b, hb⟩ := bodyTail_exited p w a1 a2 _ c1 ch co hcm2 heff hbo
              rw [hb, hc1]
              simp
  cases hval : ansibleValidate p with
  | some m =>
    simp only [mainModel, hval] at hout
    cases hout
  | none =>
    cases hum : p.umask with
    | none =>
      simp only [mainModel, hval, hum] at hout hvc
      exact hbody _ rfl hout hvc
    | some s =>
      by_cases hse : s = ""
      · simp only [mainModel, hval, hum, hse, ite_true] at hout
        cases hout
      · cases hpo : pyIntOctal s with
        | none =>
          simp only [mainModel, hval, hum, if_neg hse, hpo] at hout
          cases hout
        | some v =>
          simp only [mainModel, hval, hum, if_neg hse, hpo] at hout hvc
          exact hbody _ rfl hout hvc

/-- Witness for C8 (amended): a concrete fresh-virtualenv install reports
`changed=true`. -/
theorem claim_C8_witness :
    (mainModel pVenvMarker wVenvMarker).venv_created = true
    ∧ nameTruthy pVenvMarker = true
    ∧ ∀ ch co, (mainModel pVenvMarker wVenvMarker).outcome = .exited ch co → ch = true :=
  ⟨by decide, by decide, fun ch co h =>
    claim_C8_amended pVenvMarker wVenvMarker ch co h (by decide) (Or.inl (by decide))⟩

/-- Witness for C7 (amended): the concrete venv-style run fails fatally with
at most the capability probe in its trace. -/
theorem claim_C7_witness :
    _is_venv_command "python3 -m venv" = true
    ∧ (((∃ m, (mainModel pVenvStyle wVenvStyle).outcome = .failed m)
        ∨ (mainModel pVenvStyle wVenvStyle).outcome = .crashed)
      ∧ (mainModel pVenvStyle wVenvStyle).trace.length ≤ 1
      ∧ ∀ cmd ∈ (mainModel pVenvStyle wVenvStyle).trace,
          ∃ s, cmd = pyShlexSplit (s ++ " --help")) :=
  ⟨by decide, claim_C7_amended pVenvStyle wVenvStyle rfl (by decide) (by decide)
    (by decide) (by decide) (by decide)⟩
